import Mathlib

/-!
# Remote-delete propagation job (src/libsync/propagateremotedelete.cpp)

A shallow embedding of `PropagateRemoteDelete`: the job's members, the members
of the propagator it touches, and every effect it has on its collaborators
(delete requests, the encrypted-delete helper, the sync journal, `done`) are
kept in one explicit state. Each C++ member function is one state transformer;
the Qt signals that call the slots back are the inputs of a step function.
-/

namespace OCC

/-! ## Collaborator types -/

/-- Transport errors of a network reply (`QNetworkReply::NetworkError`); the job
itself only tells `NoError` and `ContentNotFoundError` from all the others. -/
inductive NetworkError
  | NoError
  | ConnectionRefusedError
  | RemoteHostClosedError
  | HostNotFoundError
  | TimeoutError
  | OperationCanceledError
  | ContentAccessDenied
  | ContentOperationNotPermittedError
  | ContentNotFoundError
  | AuthenticationRequiredError
  | UnknownContentError
  | InternalServerError
  | ServiceUnavailableError
  | UnknownServerError
  deriving DecidableEq, Repr

/-- Outcome tiers (`SyncFileItem::Status`). -/
inductive Status
  | NoStatus
  | FatalError
  | NormalError
  | SoftError
  | Success
  | Conflict
  | FileIgnored
  | FileLocked
  | DetailError
  | BlacklistedError
  deriving DecidableEq, Repr

/-- Error categories handed to `done` (`ErrorCategory`). -/
inductive ErrorCategory
  | NoError
  | GenericError
  | NetworkError
  | InsufficientRemoteStorage
  deriving DecidableEq, Repr

/-- Item types (`ItemType`); only `ItemTypeVirtualFile` is inspected by the job. -/
inductive ItemType
  | ItemTypeFile
  | ItemTypeSoftLink
  | ItemTypeDirectory
  | ItemTypeSkip
  | ItemTypeVirtualFile
  | ItemTypeVirtualFileDownload
  | ItemTypeVirtualFileDehydration
  deriving DecidableEq, Repr

/-- Modes of the virtual file system plugin (`Vfs::Mode`). -/
inductive VfsMode
  | Off
  | WithSuffix
  | WindowsCfApi
  | XAttr
  deriving DecidableEq, Repr

/-- Lock state of an item (`SyncFileItem::LockStatus`). -/
inductive LockStatus
  | UnlockedItem
  | LockedItem
  deriving DecidableEq, Repr

/-- Deletion mode of an item (`SyncFileItem::SynchronizationOptions`). -/
inductive SynchronizationOptions
  | NormalSynchronization
  | WantsPermanentDeletion
  deriving DecidableEq, Repr

/-- How `abort` was requested (`PropagatorJob::AbortType`). -/
inductive AbortType
  | Synchronous
  | Asynchronous
  deriving DecidableEq, Repr

/-- The members of `SyncFileItem` the job reads or writes. `isDirectory` and
`isEncrypted` are the values of the accessors of the same name. The last three
fields are the ones the job writes. -/
structure SyncFileItem where
  _file : String
  _originalFile : String
  _encryptedFileName : String
  isEncrypted : Bool
  isDirectory : Bool
  _type : ItemType
  _locked : LockStatus
  _lockToken : String
  _wantsSpecificActions : SynchronizationOptions
  _httpErrorCode : Int
  _responseTimeStamp : String
  _requestId : String
  deriving DecidableEq, Repr

/-- The two slots a `DeleteJob::finishedSignal` is connected to. -/
inductive Slot
  | slotDeleteJobFinished
  | slotPartialDeleteJobFinished
  deriving DecidableEq, Repr

/-- A delete request as the job builds it: the arguments of the `DeleteJob`
constructor, the value given to `setSkipTrashbin` and the slot connected to
its `finishedSignal`. -/
structure DeleteJob where
  path : String
  headers : List (String × String)
  skipTrashbin : Bool
  finishedSlot : Slot
  deriving DecidableEq, Repr

/-- The two encrypted-delete helpers `start` chooses between. -/
inductive EncryptedHelper
  | PropagateRemoteDeleteEncrypted
  | PropagateRemoteDeleteEncryptedRootFolder
  deriving DecidableEq, Repr

/-- What a finished `DeleteJob` exposes to the slots: `reply()->error()`, the
HTTP status-code and reason-phrase attributes, `responseTimestamp()`,
`requestId()` and `errorString()`. -/
structure Reply where
  error : NetworkError
  httpStatus : Int
  reasonPhrase : String
  responseTimestamp : String
  requestId : String
  errorString : String
  deriving DecidableEq, Repr

/-- Effects of the job on its collaborators, in the order they happen. -/
inductive Event
  | hasSelectiveSyncDescendants (path : String)
  | getSyncedDescendants (path : String)
  | deleteJobStart (job : DeleteJob)
  | helperStart (helper : EncryptedHelper)
  | deleteFileRecord (path : String) (isDirectory : Bool) (result : Bool)
  | commit (context : String)
  | done (status : Status) (errorString : String) (category : ErrorCategory)
  | replyAbort
  | abortFinished
  | indexOutOfRange
  deriving DecidableEq, Repr

/-- The sync journal (`SyncJournalDb`) is not part of the sources: its four
operations used by the job are parameters over an arbitrary journal state `J`. -/
structure SyncJournalDb (J : Type) where
  hasSelectiveSyncDescendants : J → String → Bool
  getSyncedDescendants : J → String → List String
  deleteFileRecord : J → String → Bool → Bool × J
  commit : J → String → J

/-- Everything the job reads from the propagator, the account and the build
that is not defined in the sources, taken as parameters: the journal
operations, `classifyError`, `errorCategoryFromNetworkError`,
`fullRemotePath`, the account's `davUrl`, the mode of the virtual file system
and the length of `APPLICATION_DOTVIRTUALFILE_SUFFIX`.

The parameter `classifyError` is the Error Classifier: a pure function of
(transport error, HTTP status) that returns a tier and may raise the "another
sync needed" flag it is handed by pointer; the second component says whether
it raises it. -/
structure Env (J : Type) where
  db : SyncJournalDb J
  classifyError : NetworkError → Int → Status × Bool
  errorCategoryFromNetworkError : NetworkError → ErrorCategory
  fullRemotePath : String → String
  davUrl : String
  vfsMode : VfsMode
  suffixSize : Nat

/-- The job (`PropagateRemoteDelete`) with the propagator members it touches.

* `_item` ... `_isPartialDeleteMode`: members of the job; `_currentDeleteIndex`
  is a C++ `int` that only counts up from 0 to the list length, a `Nat` here
  (the same number for every list of fewer than 2^31 entries).
* `_abortRequested` ... `_activeJobList`: members of the propagator;
  `_activeJobList` is the number of times this job is in the list.
* `pendingSignal`, `helperPending`: the Qt connections still to fire, i.e. the
  slot of the delete request in flight and whether the helper is running.
* `trace`: the effects so far, oldest first. -/
structure State (J : Type) where
  _item : SyncFileItem
  _job : Option DeleteJob
  _deleteEncryptedHelper : Option EncryptedHelper
  _syncedItemsToDelete : List String
  _currentDeleteIndex : Nat
  _isPartialDeleteMode : Bool
  _abortRequested : Bool
  _anotherSyncNeeded : Bool
  _journal : J
  _activeJobList : Nat
  pendingSignal : Option Slot
  helperPending : Bool
  trace : List Event

/-- Inputs of the job after `start`: the signals of its collaborators and the
scheduler's call of `abort`. A `helperFinished` carries what the lambda reads
from the helper: `networkError()` and `errorString()`. -/
inductive Input
  | finishedSignal (reply : Reply)
  | helperFinished (success : Bool) (networkError : NetworkError) (errorString : String)
  | abort (abortType : AbortType)
  deriving DecidableEq, Repr

variable {J : Type}

/-! ## The job -/

/-- The constructor: `_currentDeleteIndex(0)`, `_isPartialDeleteMode(false)`,
no request, no helper, an empty list. -/
def construct (item : SyncFileItem) (abortRequested anotherSyncNeeded : Bool) (journal : J)
    (activeJobList : Nat) : State J :=
  { _item := item
    _job := none
    _deleteEncryptedHelper := none
    _syncedItemsToDelete := []
    _currentDeleteIndex := 0
    _isPartialDeleteMode := false
    _abortRequested := abortRequested
    _anotherSyncNeeded := anotherSyncNeeded
    _journal := journal
    _activeJobList := activeJobList
    pendingSignal := none
    helperPending := false
    trace := [] }

/-- Records one effect. -/
def emit (s : State J) (e : Event) : State J :=
  { s with trace := s.trace ++ [e] }

/-- Modelled from the spec: `PropagateItemJob::done` is defined outside the
sources; it hands the single terminal Outcome (tier, message, category) to the
scheduler, recorded here as an effect. -/
def done (s : State J) (status : Status) (errorString : String) (category : ErrorCategory) :
    State J :=
  emit s (Event.done status errorString category)

/-- The "If" header both request builders attach when the item is locked. -/
def lockHeaders (env : Env J) (item : SyncFileItem) : List (String × String) :=
  if item._locked = LockStatus.LockedItem then
    [("If", "<" ++ env.davUrl ++ item._file ++ "> (<opaquelocktoken:" ++ item._lockToken ++ ">)")]
  else []

/-- The member function `PropagateRemoteDelete::createDeleteJob` (lines 81-104).
`chop` drops the virtual-file suffix, whose length is the parameter
`suffixSize`. -/
def createDeleteJob (env : Env J) (s : State J) (filename : String) : State J :=
  let remoteFilename :=
    if s._item._type = ItemType.ItemTypeVirtualFile ∧ env.vfsMode = VfsMode.WithSuffix then
      filename.dropRight env.suffixSize
    else filename
  let job : DeleteJob :=
    { path := env.fullRemotePath remoteFilename
      headers := lockHeaders env s._item
      skipTrashbin :=
        decide (s._item._wantsSpecificActions = SynchronizationOptions.WantsPermanentDeletion)
      finishedSlot := Slot.slotDeleteJobFinished }
  emit { s with
          _job := some job
          _activeJobList := s._activeJobList + 1
          pendingSignal := some Slot.slotDeleteJobFinished }
    (Event.deleteJobStart job)

/-- The member function `PropagateRemoteDelete::createPartialDeleteJob` (lines
182-197). -/
def createPartialDeleteJob (env : Env J) (s : State J) (filename : String) : State J :=
  let remoteFilename := filename
  let job : DeleteJob :=
    { path := env.fullRemotePath remoteFilename
      headers := lockHeaders env s._item
      skipTrashbin :=
        decide (s._item._wantsSpecificActions = SynchronizationOptions.WantsPermanentDeletion)
      finishedSlot := Slot.slotPartialDeleteJobFinished }
  emit { s with
          _job := some job
          _activeJobList := s._activeJobList + 1
          pendingSignal := some Slot.slotPartialDeleteJobFinished }
    (Event.deleteJobStart job)

/-- The member function `PropagateRemoteDelete::deleteNextSyncedItem` (lines
162-180). -/
def deleteNextSyncedItem (env : Env J) (s : State J) : State J :=
  if h : s._currentDeleteIndex ≥ s._syncedItemsToDelete.length then
    done { s with _isPartialDeleteMode := false } Status.Success "" ErrorCategory.NoError
  else
    let itemPath := s._syncedItemsToDelete.get ⟨s._currentDeleteIndex, Nat.lt_of_not_le h⟩
    createPartialDeleteJob env s itemPath

/-- The slot `PropagateRemoteDelete::slotPartialDeleteJobFinished` (lines
199-224). The unchecked access `_syncedItemsToDelete[_currentDeleteIndex]` of
line 216 is recorded as `indexOutOfRange` should the index ever be outside the
list. -/
def slotPartialDeleteJobFinished (env : Env J) (s : State J) (reply : Reply) : State J :=
  let s := { s with _activeJobList := s._activeJobList - 1 }
  if reply.error ≠ NetworkError.NoError ∧ reply.error ≠ NetworkError.ContentNotFoundError then
    done s Status.SoftError reply.errorString ErrorCategory.GenericError
  else
    match s._syncedItemsToDelete[s._currentDeleteIndex]? with
    | none => emit s Event.indexOutOfRange
    | some itemPath =>
      let r := env.db.deleteFileRecord s._journal itemPath false
      let s := emit { s with _journal := r.2 } (Event.deleteFileRecord itemPath false r.1)
      let s := { s with _currentDeleteIndex := s._currentDeleteIndex + 1 }
      deleteNextSyncedItem env s

/-- The slot `PropagateRemoteDelete::slotDeleteJobFinished` (lines 116-160). -/
def slotDeleteJobFinished (env : Env J) (s : State J) (reply : Reply) : State J :=
  let s := { s with _activeJobList := s._activeJobList - 1 }
  let err := reply.error
  let httpStatus := reply.httpStatus
  let s := { s with
              _item := { s._item with
                          _httpErrorCode := httpStatus
                          _responseTimeStamp := reply.responseTimestamp
                          _requestId := reply.requestId } }
  if err ≠ NetworkError.NoError ∧ err ≠ NetworkError.ContentNotFoundError then
    let c := env.classifyError err s._item._httpErrorCode
    let s := { s with _anotherSyncNeeded := s._anotherSyncNeeded || c.2 }
    done s c.1 reply.errorString (env.errorCategoryFromNetworkError err)
  else if httpStatus ≠ 204 ∧ httpStatus ≠ 404 then
    done s Status.NormalError
      ("Wrong HTTP code returned by server. Expected 204, but received \"" ++
        toString s._item._httpErrorCode ++ " " ++ reply.reasonPhrase ++ "\".")
      ErrorCategory.GenericError
  else
    let r := env.db.deleteFileRecord s._journal s._item._originalFile s._item.isDirectory
    let s := emit { s with _journal := r.2 }
      (Event.deleteFileRecord s._item._originalFile s._item.isDirectory r.1)
    if !r.1 then
      done s Status.NormalError
        ("Could not delete file record " ++ s._item._originalFile ++ " from local DB")
        ErrorCategory.GenericError
    else
      let s := emit { s with _journal := env.db.commit s._journal "Remote Remove" }
        (Event.commit "Remote Remove")
      done s Status.Success "" ErrorCategory.NoError

/-- The lambda connected to the helper's `finished` signal (lines 64-74). -/
def helperFinished (env : Env J) (s : State J) (success : Bool) (networkError : NetworkError)
    (errorString : String) : State J :=
  if !success then
    if networkError ≠ NetworkError.NoError ∧ networkError ≠ NetworkError.ContentNotFoundError then
      let c := env.classifyError networkError s._item._httpErrorCode
      let s := { s with _anotherSyncNeeded := s._anotherSyncNeeded || c.2 }
      done s c.1 errorString ErrorCategory.GenericError
    else
      done s Status.NormalError errorString ErrorCategory.GenericError
  else
    done s Status.Success "" ErrorCategory.NoError

/-- Lines 58-78 of `PropagateRemoteDelete::start`: the encrypted-delete helper
for an encrypted item, a direct delete request otherwise. -/
def startDelete (env : Env J) (s : State J) : State J :=
  if s._item._encryptedFileName ≠ "" ∨ s._item.isEncrypted then
    let helper :=
      if s._item._encryptedFileName ≠ "" then EncryptedHelper.PropagateRemoteDeleteEncrypted
      else EncryptedHelper.PropagateRemoteDeleteEncryptedRootFolder
    emit { s with _deleteEncryptedHelper := some helper, helperPending := true }
      (Event.helperStart helper)
  else
    createDeleteJob env s s._item._file

/-- The entry point `PropagateRemoteDelete::start` (lines 22-79). The propagator and its journal
are dereferenced unconditionally on lines 27, 151 and 217, so the null checks
of line 32 hold in every defined run and only `isDirectory` is tested there. -/
def start (env : Env J) (s : State J) : State J :=
  if s._abortRequested then s
  else if s._item.isDirectory then
    let s := emit s (Event.hasSelectiveSyncDescendants s._item._file)
    if env.db.hasSelectiveSyncDescendants s._journal s._item._file then
      let s := emit { s with
                      _syncedItemsToDelete := env.db.getSyncedDescendants s._journal s._item._file }
        (Event.getSyncedDescendants s._item._file)
      if ¬ s._syncedItemsToDelete.isEmpty then
        deleteNextSyncedItem env { s with _isPartialDeleteMode := true }
      else
        done s Status.Success "" ErrorCategory.NoError
    else startDelete env s
  else startDelete env s

/-- The member function `PropagateRemoteDelete::abort` (lines 106-114). The
reply of a request exists from the moment the request is started, which both
builders do at once, so `_job && _job->reply()` is `_job` being set. -/
def abort (s : State J) (abortType : AbortType) : State J :=
  let s := if s._job.isSome then emit s Event.replyAbort else s
  if abortType = AbortType.Asynchronous then emit s Event.abortFinished else s

/-! ## Runs -/

/-- One input delivered to the job. A `finishedSignal` reaches the slot its
request is connected to, a `helperFinished` reaches the lambda; each fires once
per request, so a signal with nothing in flight is not delivered. -/
def deliver (env : Env J) (s : State J) : Input → State J
  | Input.finishedSignal reply =>
    match s.pendingSignal with
    | some Slot.slotDeleteJobFinished =>
      slotDeleteJobFinished env { s with pendingSignal := none } reply
    | some Slot.slotPartialDeleteJobFinished =>
      slotPartialDeleteJobFinished env { s with pendingSignal := none } reply
    | none => s
  | Input.helperFinished success networkError errorString =>
    if s.helperPending then
      helperFinished env { s with helperPending := false } success networkError errorString
    else s
  | Input.abort abortType => abort s abortType

/-- The run of a job: `start`, then the inputs in order. -/
def run (env : Env J) (s : State J) (inputs : List Input) : State J :=
  inputs.foldl (deliver env) (start env s)

/-! ## Reading a trace -/

/-- The delete requests started, oldest first. -/
def requests (t : List Event) : List DeleteJob :=
  t.filterMap fun e => match e with
    | Event.deleteJobStart job => some job
    | _ => none

/-- The encrypted-delete helpers started, oldest first. -/
def helpers (t : List Event) : List EncryptedHelper :=
  t.filterMap fun e => match e with
    | Event.helperStart helper => some helper
    | _ => none

/-- The calls of `deleteFileRecord` as (path, isDirectory), oldest first. -/
def removals (t : List Event) : List (String × Bool) :=
  t.filterMap fun e => match e with
    | Event.deleteFileRecord path isDirectory _ => some (path, isDirectory)
    | _ => none

/-- The calls of `commit` by their context string, oldest first. -/
def commits (t : List Event) : List String :=
  t.filterMap fun e => match e with
    | Event.commit context => some context
    | _ => none

/-- The calls of `done` as (tier, message, category), oldest first. -/
def dones (t : List Event) : List (Status × String × ErrorCategory) :=
  t.filterMap fun e => match e with
    | Event.done status errorString category => some (status, errorString, category)
    | _ => none

/-- The journal queries of `start`, oldest first. -/
def queries (t : List Event) : List Event :=
  t.filter fun e => match e with
    | Event.hasSelectiveSyncDescendants _ => true
    | Event.getSyncedDescendants _ => true
    | _ => false

/-- A reply is acceptable to the transport check of both slots when its error
is `NoError` or `ContentNotFoundError`. -/
def Reply.transportOk (r : Reply) : Prop :=
  r.error = NetworkError.NoError ∨ r.error = NetworkError.ContentNotFoundError

instance (r : Reply) : Decidable r.transportOk := by
  unfold Reply.transportOk; infer_instance

/-- The request `createPartialDeleteJob` builds for one descendant. -/
def partialJobFor (env : Env J) (item : SyncFileItem) (filename : String) : DeleteJob :=
  { path := env.fullRemotePath filename
    headers := lockHeaders env item
    skipTrashbin :=
      decide (item._wantsSpecificActions = SynchronizationOptions.WantsPermanentDeletion)
    finishedSlot := Slot.slotPartialDeleteJobFinished }

/-! ## Concrete collaborators for the examples -/

/-- A journal kept as the list of its records: directories listed in
`excludedDirs` have selective-sync descendants, `synced` are the synced
descendants it reports, records in `failing` cannot be removed. -/
def listJournal (excludedDirs synced failing : List String) : SyncJournalDb (List String) :=
  { hasSelectiveSyncDescendants := fun _ path => decide (path ∈ excludedDirs)
    getSyncedDescendants := fun _ _ => synced
    deleteFileRecord := fun j path _ =>
      if path ∈ failing then (false, j) else (true, j.erase path)
    commit := fun j _ => j }

/-- A classifier for the examples: connection-level errors are fatal, a
cancelled or timed-out request is soft and flags another sync, status 423
means locked, everything else is a normal error. -/
def sampleClassifyError (err : NetworkError) (httpCode : Int) : Status × Bool :=
  match err with
  | NetworkError.ConnectionRefusedError => (Status.FatalError, false)
  | NetworkError.HostNotFoundError => (Status.FatalError, false)
  | NetworkError.TimeoutError => (Status.SoftError, true)
  | NetworkError.OperationCanceledError => (Status.SoftError, true)
  | _ => if httpCode = 423 then (Status.FileLocked, true) else (Status.NormalError, false)

/-- An environment for the examples over `listJournal`. -/
def sampleEnv (excludedDirs synced failing : List String) : Env (List String) :=
  { db := listJournal excludedDirs synced failing
    classifyError := sampleClassifyError
    errorCategoryFromNetworkError := fun err =>
      if err = NetworkError.NoError then ErrorCategory.NoError else ErrorCategory.NetworkError
    fullRemotePath := fun path => "/remote.php/dav/files/alice/" ++ path
    davUrl := "https://cloud.example/remote.php/dav/"
    vfsMode := VfsMode.Off
    suffixSize := 10 }

/-- A plain item for the examples: a file or directory at `file`, not
encrypted, not locked, to be moved to the trash. -/
def sampleItem (file : String) (isDirectory : Bool) : SyncFileItem :=
  { _file := file
    _originalFile := file
    _encryptedFileName := ""
    isEncrypted := false
    isDirectory := isDirectory
    _type := if isDirectory then ItemType.ItemTypeDirectory else ItemType.ItemTypeFile
    _locked := LockStatus.UnlockedItem
    _lockToken := ""
    _wantsSpecificActions := SynchronizationOptions.NormalSynchronization
    _httpErrorCode := 0
    _responseTimeStamp := ""
    _requestId := "" }

/-- A reply with the given transport error and HTTP status. -/
def sampleReply (error : NetworkError) (httpStatus : Int) : Reply :=
  { error := error
    httpStatus := httpStatus
    reasonPhrase := ""
    responseTimestamp := "Mon, 02 Nov 2026 08:00:00 GMT"
    requestId := "req"
    errorString := if error = NetworkError.NoError then "" else "transport error" }

/-! ## Vocabulary of the statements -/

/-- How a state `s'` relates to a state `s` with a partial-step request in
flight after `m` further transport successes. -/
def PartialProgress (env : Env J) (s : State J) (m : Nat) (s' : State J) : Prop :=
  s'._item = s._item ∧
  s'._syncedItemsToDelete = s._syncedItemsToDelete ∧
  s'._currentDeleteIndex = s._currentDeleteIndex + m ∧
  s'.helperPending = s.helperPending ∧
  s'.pendingSignal =
    (if s._currentDeleteIndex + m < s._syncedItemsToDelete.length then
      some Slot.slotPartialDeleteJobFinished else none) ∧
  requests s'.trace = requests s.trace ++
    ((s._syncedItemsToDelete.drop (s._currentDeleteIndex + 1)).take m).map
      (partialJobFor env s._item) ∧
  removals s'.trace = removals s.trace ++
    ((s._syncedItemsToDelete.drop s._currentDeleteIndex).take m).map (fun p => (p, false)) ∧
  dones s'.trace = dones s.trace ++
    (if s._currentDeleteIndex + m < s._syncedItemsToDelete.length then []
     else [(Status.Success, "", ErrorCategory.NoError)]) ∧
  commits s'.trace = commits s.trace ∧
  helpers s'.trace = helpers s.trace

/-- The request `createDeleteJob` builds for the item's own file. -/
def directJobFor (env : Env J) (item : SyncFileItem) : DeleteJob :=
  { path := env.fullRemotePath
      (if item._type = ItemType.ItemTypeVirtualFile ∧ env.vfsMode = VfsMode.WithSuffix then
        item._file.dropRight env.suffixSize
      else item._file)
    headers := lockHeaders env item
    skipTrashbin :=
      decide (item._wantsSpecificActions = SynchronizationOptions.WantsPermanentDeletion)
    finishedSlot := Slot.slotDeleteJobFinished }

/-- The message of `done` for an unexpected HTTP status. -/
def wrongStatusMessage (httpStatus : Int) (reasonPhrase : String) : String :=
  "Wrong HTTP code returned by server. Expected 204, but received \"" ++
    toString httpStatus ++ " " ++ reasonPhrase ++ "\"."

/-- The message of `done` when the journal record cannot be removed. -/
def recordMessage (originalFile : String) : String :=
  "Could not delete file record " ++ originalFile ++ " from local DB"

/-- The Outcome the lambda of lines 64-74 hands to `done`, as a function of
what the helper reports and of the item's HTTP code. -/
def helperOutcome (env : Env J) (item : SyncFileItem) (success : Bool)
    (networkError : NetworkError) (errorString : String) :
    Status × String × ErrorCategory :=
  if success then (Status.Success, "", ErrorCategory.NoError)
  else if networkError = NetworkError.NoError ∨
      networkError = NetworkError.ContentNotFoundError then
    (Status.NormalError, errorString, ErrorCategory.GenericError)
  else
    ((env.classifyError networkError item._httpErrorCode).1, errorString,
      ErrorCategory.GenericError)

/-- The first `finished` notification of the helper among the inputs. -/
def firstHelperFinished : List Input → Option (Bool × NetworkError × String)
  | [] => none
  | Input.helperFinished success networkError errorString :: _ =>
    some (success, networkError, errorString)
  | _ :: rest => firstHelperFinished rest

/-- The number of completions the job is still waiting for: the delete
request in flight and the running helper. -/
def pendingCount (s : State J) : Nat :=
  (if s.pendingSignal.isSome then 1 else 0) + (if s.helperPending then 1 else 0)

/-- The effects recorded after the first call of `done`. -/
def afterFirstDone : List Event → List Event
  | [] => []
  | Event.done _ _ _ :: rest => rest
  | _ :: rest => afterFirstDone rest

/-- A stretch of the trace with no delete request, no helper start, no
journal mutation and no `done`. -/
def Quiet (t : List Event) : Prop :=
  requests t = [] ∧ helpers t = [] ∧ removals t = [] ∧ commits t = [] ∧ dones t = []

/-- The invariant behind exactly-once completion: calls of `done` and
outstanding completions add up to `c`, nothing but abort bookkeeping follows
a `done`, and a partial-step request in flight has its cursor inside the
list. -/
def Inv (c : Nat) (s : State J) : Prop :=
  (dones s.trace).length + pendingCount s = c ∧
  Quiet (afterFirstDone s.trace) ∧
  (s.pendingSignal = some Slot.slotPartialDeleteJobFinished →
    s._currentDeleteIndex < s._syncedItemsToDelete.length)

/-- The number of request completions the job still needs before nothing is
in flight: the entries from the cursor on in partial mode, one for a direct
request. -/
def stepsLeft (s : State J) : Nat :=
  match s.pendingSignal with
  | some Slot.slotPartialDeleteJobFinished =>
    s._syncedItemsToDelete.length - s._currentDeleteIndex
  | some Slot.slotDeleteJobFinished => 1
  | none => 0

/-- The number of request completions among the inputs. -/
def finishedSignals (inputs : List Input) : Nat :=
  inputs.countP fun i => match i with
    | Input.finishedSignal _ => true
    | _ => false

/-- The number of helper notifications among the inputs. -/
def helperNotifications (inputs : List Input) : Nat :=
  inputs.countP fun i => match i with
    | Input.helperFinished _ _ _ => true
    | _ => false

/-- The effects of one completion of a direct request: at most one
`deleteFileRecord`, at most one `commit` after it, and a final `done`. -/
def DirectDelta (delta : List Event) : Prop :=
  ∃ path isDirectory result status errorString category,
    delta = [Event.done status errorString category] ∨
    delta = [Event.deleteFileRecord path isDirectory result,
      Event.done status errorString category] ∨
    delta = [Event.deleteFileRecord path isDirectory result, Event.commit "Remote Remove",
      Event.done status errorString category]

/-- The item after the direct slot has copied a reply's HTTP status, response
timestamp and request id into it. -/
def withReply (item : SyncFileItem) (r : Reply) : SyncFileItem :=
  { item with
    _httpErrorCode := r.httpStatus
    _responseTimeStamp := r.responseTimestamp
    _requestId := r.requestId }

/-- What holds of every state a job for `item` can reach: the cursor is
inside the list, strictly while a partial-step request is in flight; line 216
never reads outside the list; every request issued is the direct request of
the item or the partial-step request of a list entry; while a request is in
flight `_job` is that request, the last one issued, no helper runs and the
item is as it was handed in; while the helper runs `_job` is unset and the
item is as it was handed in; a partial-step request in flight is the one for
the entry under the cursor. -/
def Reach (env : Env J) (item : SyncFileItem) (s : State J) : Prop :=
  s._currentDeleteIndex ≤ s._syncedItemsToDelete.length ∧
  (s.pendingSignal = some Slot.slotPartialDeleteJobFinished →
    s._currentDeleteIndex < s._syncedItemsToDelete.length) ∧
  Event.indexOutOfRange ∉ s.trace ∧
  (∀ q ∈ requests s.trace, q = directJobFor env item ∨
    ∃ p ∈ s._syncedItemsToDelete, q = partialJobFor env item p) ∧
  (s.pendingSignal.isSome = true →
    s._job.isSome = true ∧ s._job = (requests s.trace).getLast? ∧ s.helperPending = false ∧
      s._item = item) ∧
  (s.helperPending = true → s._job = none ∧ s._item = item) ∧
  (s.pendingSignal = some Slot.slotPartialDeleteJobFinished →
    ∃ cur, s._syncedItemsToDelete[s._currentDeleteIndex]? = some cur ∧
      s._job = some (partialJobFor env item cur))

/-- The effects `abort` records: `reply()->abort()` if `_job` is set, and the
`abortFinished` signal if the abort is asynchronous. -/
def abortEffects (jobSet : Bool) (abortType : AbortType) : List Event :=
  (if jobSet = true then [Event.replyAbort] else []) ++
    (if abortType = AbortType.Asynchronous then [Event.abortFinished] else [])

/-- A job that neither has nor had a direct request or a helper: no direct
request is in flight, no helper runs or was started, nothing was committed,
and the item is as it was handed in. -/
def PartialOnly (item : SyncFileItem) (s : State J) : Prop :=
  s.pendingSignal ≠ some Slot.slotDeleteJobFinished ∧
  s.helperPending = false ∧
  commits s.trace = [] ∧
  helpers s.trace = [] ∧
  s._item = item

/-- The same environment with another `deleteFileRecord`: what two runs that
differ only in which journal removals fail, and in what they do to the
journal, have in common. -/
def withDeleteFileRecord (env : Env J) (f : J → String → Bool → Bool × J) : Env J :=
  { env with db := { env.db with deleteFileRecord := f } }

/-- Two states agree on everything but the journal: the item, the list, the
cursor, what is in flight, `_job`, and the requests, `deleteFileRecord` calls
and `done` calls recorded so far. -/
def SameBookkeeping (s1 s2 : State J) : Prop :=
  s1._item = s2._item ∧
  s1._syncedItemsToDelete = s2._syncedItemsToDelete ∧
  s1._currentDeleteIndex = s2._currentDeleteIndex ∧
  s1.pendingSignal = s2.pendingSignal ∧
  s1._job = s2._job ∧
  requests s1.trace = requests s2.trace ∧
  removals s1.trace = removals s2.trace ∧
  dones s1.trace = dones s2.trace

/-- The journal after `deleteFileRecord` has been called, as the partial slot
calls it, for each of `paths` in order, each call on the journal the previous
one left. -/
def journalAfter (env : Env J) (paths : List String) (journal : J) : J :=
  paths.foldl (fun jr path => (env.db.deleteFileRecord jr path false).2) journal

/-! # Theorems -/

/-! ## Traces after `done` -/

theorem quiet_nil : Quiet [] := by
  simp [Quiet, requests, helpers, removals, commits, dones]

theorem quiet_append (t u : List Event) (ht : Quiet t) (hu : Quiet u) : Quiet (t ++ u) := by
  obtain ⟨a1, a2, a3, a4, a5⟩ := ht
  obtain ⟨b1, b2, b3, b4, b5⟩ := hu
  simp only [requests, helpers, removals, commits, dones] at a1 a2 a3 a4 a5 b1 b2 b3 b4 b5
  simp only [Quiet, requests, helpers, removals, commits, dones, List.filterMap_append,
    a1, a2, a3, a4, a5, b1, b2, b3, b4, b5, List.append_nil, and_self]

theorem afterFirstDone_of_no_done (t : List Event) (h : dones t = []) : afterFirstDone t = [] := by
  induction t with
  | nil => rfl
  | cons e t ih =>
    cases e <;> simp [afterFirstDone, dones] at h ⊢ <;> exact ih (by simpa [dones] using h)

theorem afterFirstDone_append_of_no_done (t u : List Event) (h : dones t = []) :
    afterFirstDone (t ++ u) = afterFirstDone u := by
  induction t with
  | nil => rfl
  | cons e t ih =>
    cases e <;> simp [afterFirstDone, dones] at h ⊢ <;> exact ih (by simpa [dones] using h)

theorem quiet_afterFirstDone_append (t u : List Event) (ht : Quiet (afterFirstDone t))
    (hu : Quiet u) : Quiet (afterFirstDone (t ++ u)) := by
  induction t with
  | nil =>
    rw [List.nil_append, afterFirstDone_of_no_done u hu.2.2.2.2]
    exact quiet_nil
  | cons e t ih =>
    cases e <;> simp only [afterFirstDone, List.cons_append] at ht ⊢ <;>
      first
        | exact ih ht
        | exact quiet_append _ _ ht hu

/-! ## What `start` does on each of its paths -/

/-- With the abort flag set `start` returns at once. -/
theorem start_aborted (env : Env J) (s : State J) (habort : s._abortRequested = true) :
    start env s = s := by
  simp [start, habort]

/-- On the direct path `start` is `createDeleteJob` for the item's own file,
after the selective-sync query if the item is a directory. -/
theorem start_direct (env : Env J) (s : State J) (habort : s._abortRequested = false)
    (hnp : ¬ (s._item.isDirectory = true ∧
      env.db.hasSelectiveSyncDescendants s._journal s._item._file = true))
    (hname : s._item._encryptedFileName = "") (henc : s._item.isEncrypted = false) :
    start env s = createDeleteJob env
      { s with trace := s.trace ++
          if s._item.isDirectory = true then [Event.hasSelectiveSyncDescendants s._item._file]
          else [] } s._item._file := by
  obtain ⟨item, _, _, _, _, _, ab, _, jr, _, _, _, tr⟩ := s
  simp only at habort hnp hname henc ⊢
  subst habort
  unfold start
  by_cases hd : item.isDirectory = true
  · have hs : env.db.hasSelectiveSyncDescendants jr item._file = false := by
      by_contra h
      exact hnp ⟨hd, by simpa using h⟩
    simp [hd, hs, startDelete, emit, hname, henc]
  · simp [hd, startDelete, hname, henc]

/-- On the encrypted path `start` only starts the helper, after the
selective-sync query if the item is a directory. -/
theorem start_encrypted (env : Env J) (s : State J) (habort : s._abortRequested = false)
    (hnp : ¬ (s._item.isDirectory = true ∧
      env.db.hasSelectiveSyncDescendants s._journal s._item._file = true))
    (henc : s._item._encryptedFileName ≠ "" ∨ s._item.isEncrypted = true) :
    start env s =
      { s with
        _deleteEncryptedHelper := some
          (if s._item._encryptedFileName ≠ "" then EncryptedHelper.PropagateRemoteDeleteEncrypted
           else EncryptedHelper.PropagateRemoteDeleteEncryptedRootFolder)
        helperPending := true
        trace := s.trace ++
          ((if s._item.isDirectory = true then [Event.hasSelectiveSyncDescendants s._item._file]
            else []) ++
          [Event.helperStart
            (if s._item._encryptedFileName ≠ "" then EncryptedHelper.PropagateRemoteDeleteEncrypted
             else EncryptedHelper.PropagateRemoteDeleteEncryptedRootFolder)]) } := by
  obtain ⟨item, _, _, _, _, _, ab, _, jr, _, _, _, tr⟩ := s
  simp only at habort hnp henc ⊢
  subst habort
  unfold start
  by_cases hd : item.isDirectory = true
  · have hs : env.db.hasSelectiveSyncDescendants jr item._file = false := by
      by_contra h
      exact hnp ⟨hd, by simpa using h⟩
    simp [hd, hs, startDelete, emit, henc]
  · simp [hd, startDelete, emit, henc]

/-- On the selective-sync path with an empty list `start` reports `Success`. -/
theorem start_empty (env : Env J) (s : State J) (habort : s._abortRequested = false)
    (hdir : s._item.isDirectory = true)
    (hsel : env.db.hasSelectiveSyncDescendants s._journal s._item._file = true)
    (hempty : env.db.getSyncedDescendants s._journal s._item._file = []) :
    start env s =
      { s with
        _syncedItemsToDelete := []
        trace := s.trace ++
          [Event.hasSelectiveSyncDescendants s._item._file,
           Event.getSyncedDescendants s._item._file,
           Event.done Status.Success "" ErrorCategory.NoError] } := by
  obtain ⟨item, _, _, _, _, _, ab, _, jr, _, _, _, tr⟩ := s
  simp only at habort hdir hsel hempty ⊢
  subst habort
  simp [start, hdir, hsel, hempty, emit, done]

/-- On the selective-sync path with a non-empty list `start` enters partial
mode and issues the request for the first descendant. -/
theorem start_partial_mode (env : Env J) (s : State J) (habort : s._abortRequested = false)
    (hdir : s._item.isDirectory = true)
    (hsel : env.db.hasSelectiveSyncDescendants s._journal s._item._file = true)
    (first : String) (rest : List String) (hidx : s._currentDeleteIndex = 0)
    (hlist : env.db.getSyncedDescendants s._journal s._item._file = first :: rest) :
    start env s =
      { s with
        _syncedItemsToDelete := first :: rest
        _isPartialDeleteMode := true
        _job := some (partialJobFor env s._item first)
        _activeJobList := s._activeJobList + 1
        pendingSignal := some Slot.slotPartialDeleteJobFinished
        trace := s.trace ++
          [Event.hasSelectiveSyncDescendants s._item._file,
           Event.getSyncedDescendants s._item._file,
           Event.deleteJobStart (partialJobFor env s._item first)] } := by
  obtain ⟨item, _, _, _, idx, _, ab, _, jr, _, _, _, tr⟩ := s
  simp only at habort hdir hsel hlist hidx ⊢
  subst habort hidx
  simp [start, hdir, hsel, hlist, emit, deleteNextSyncedItem, createPartialDeleteJob,
    partialJobFor]

/-! ## One step of the partial-delete protocol -/

/-- A transport failure in partial mode: `done(SoftError)`, nothing else. -/
theorem partial_step_failed (env : Env J) (s : State J) (r : Reply)
    (hpending : s.pendingSignal = some Slot.slotPartialDeleteJobFinished)
    (hbad : ¬ r.transportOk) :
    deliver env s (Input.finishedSignal r) =
      { s with
        _activeJobList := s._activeJobList - 1
        pendingSignal := none
        trace := s.trace ++
          [Event.done Status.SoftError r.errorString ErrorCategory.GenericError] } := by
  have h : r.error ≠ NetworkError.NoError ∧ r.error ≠ NetworkError.ContentNotFoundError := by
    unfold Reply.transportOk at hbad
    tauto
  simp [deliver, hpending, slotPartialDeleteJobFinished, h, done, emit]

/-- A transport success in partial mode with a further entry to process: the
record of the current entry is removed, the cursor advances and the request
for the next entry is issued. -/
theorem partial_step_next (env : Env J) (s : State J) (r : Reply)
    (hpending : s.pendingSignal = some Slot.slotPartialDeleteJobFinished)
    (hok : r.transportOk) (cur next : String)
    (hcur : s._syncedItemsToDelete[s._currentDeleteIndex]? = some cur)
    (hnext : s._syncedItemsToDelete[s._currentDeleteIndex + 1]? = some next) :
    deliver env s (Input.finishedSignal r) =
      { s with
        _job := some (partialJobFor env s._item next)
        _currentDeleteIndex := s._currentDeleteIndex + 1
        _journal := (env.db.deleteFileRecord s._journal cur false).2
        _activeJobList := s._activeJobList - 1 + 1
        pendingSignal := some Slot.slotPartialDeleteJobFinished
        trace := s.trace ++
          [Event.deleteFileRecord cur false (env.db.deleteFileRecord s._journal cur false).1,
           Event.deleteJobStart (partialJobFor env s._item next)] } := by
  have h : ¬ (r.error ≠ NetworkError.NoError ∧ r.error ≠ NetworkError.ContentNotFoundError) := by
    unfold Reply.transportOk at hok
    tauto
  have hlt : s._currentDeleteIndex + 1 < s._syncedItemsToDelete.length := by
    rcases List.getElem?_eq_some.mp hnext with ⟨h1, _⟩
    exact h1
  have hget : s._syncedItemsToDelete[s._currentDeleteIndex + 1] = next := by
    rcases List.getElem?_eq_some.mp hnext with ⟨_, h2⟩
    exact h2
  simp [deliver, hpending, slotPartialDeleteJobFinished, h, hcur, emit, deleteNextSyncedItem,
    Nat.not_le.mpr hlt, createPartialDeleteJob, partialJobFor, hget]

/-- A transport success in partial mode on the last entry: its record is
removed, the cursor reaches the list length and the job reports `Success`. -/
theorem partial_step_last (env : Env J) (s : State J) (r : Reply)
    (hpending : s.pendingSignal = some Slot.slotPartialDeleteJobFinished)
    (hok : r.transportOk) (cur : String)
    (hcur : s._syncedItemsToDelete[s._currentDeleteIndex]? = some cur)
    (hlast : s._currentDeleteIndex + 1 = s._syncedItemsToDelete.length) :
    deliver env s (Input.finishedSignal r) =
      { s with
        _currentDeleteIndex := s._currentDeleteIndex + 1
        _isPartialDeleteMode := false
        _journal := (env.db.deleteFileRecord s._journal cur false).2
        _activeJobList := s._activeJobList - 1
        pendingSignal := none
        trace := s.trace ++
          [Event.deleteFileRecord cur false (env.db.deleteFileRecord s._journal cur false).1,
           Event.done Status.Success "" ErrorCategory.NoError] } := by
  have h : ¬ (r.error ≠ NetworkError.NoError ∧ r.error ≠ NetworkError.ContentNotFoundError) := by
    unfold Reply.transportOk at hok
    tauto
  simp [deliver, hpending, slotPartialDeleteJobFinished, h, hcur, emit, deleteNextSyncedItem,
    hlast, done]

/-! ## Runs of the partial-delete protocol -/

/-- Feeding transport successes to a job in partial mode: each one removes
the record of the current entry and either issues the next request or, on the
last entry, reports `Success`. -/
theorem partial_run_ok (env : Env J) (rs : List Reply) :
    ∀ s : State J,
      s.pendingSignal = some Slot.slotPartialDeleteJobFinished →
      (∀ r ∈ rs, r.transportOk) →
      s._currentDeleteIndex < s._syncedItemsToDelete.length →
      s._currentDeleteIndex + rs.length ≤ s._syncedItemsToDelete.length →
      PartialProgress env s rs.length ((rs.map Input.finishedSignal).foldl (deliver env) s) := by
  induction rs with
  | nil =>
    intro s hp _ hlt _
    simp [PartialProgress, hp, hlt]
  | cons r rs ih =>
    intro s hp hok hlt hle
    have hr : r.transportOk := hok r (List.mem_cons_self _ _)
    have hrs : ∀ r' ∈ rs, r'.transportOk := fun r' h => hok r' (List.mem_cons_of_mem _ h)
    have hcur : s._syncedItemsToDelete[s._currentDeleteIndex]? =
        some (s._syncedItemsToDelete[s._currentDeleteIndex]) := List.getElem?_eq_getElem hlt
    have hdrop : s._syncedItemsToDelete.drop s._currentDeleteIndex =
        s._syncedItemsToDelete[s._currentDeleteIndex] ::
          s._syncedItemsToDelete.drop (s._currentDeleteIndex + 1) :=
      List.drop_eq_getElem_cons hlt
    simp only [List.map_cons, List.foldl_cons, List.length_cons] at hle ⊢
    by_cases hnext : s._currentDeleteIndex + 1 < s._syncedItemsToDelete.length
    · have hn : s._syncedItemsToDelete[s._currentDeleteIndex + 1]? =
          some (s._syncedItemsToDelete[s._currentDeleteIndex + 1]) :=
        List.getElem?_eq_getElem hnext
      have hdrop1 : s._syncedItemsToDelete.drop (s._currentDeleteIndex + 1) =
          s._syncedItemsToDelete[s._currentDeleteIndex + 1] ::
            s._syncedItemsToDelete.drop (s._currentDeleteIndex + 1 + 1) :=
        List.drop_eq_getElem_cons hnext
      have hs1 := partial_step_next env s r hp hr _ _ hcur hn
      have h := ih (deliver env s (Input.finishedSignal r)) (by rw [hs1]) hrs
        (by rw [hs1]; simpa using hnext) (by rw [hs1]; simp only; omega)
      generalize List.foldl (deliver env) (deliver env s (Input.finishedSignal r))
        (List.map Input.finishedSignal rs) = sf at h ⊢
      rw [hs1] at h
      simp only [PartialProgress] at h ⊢
      obtain ⟨h1, h2, h3, h4, h5, h6, h7, h8, h9, h10⟩ := h
      have e : s._currentDeleteIndex + 1 + rs.length = s._currentDeleteIndex + (rs.length + 1) := by
        omega
      rw [e] at h3 h5 h8
      refine ⟨h1, h2, h3, h4, h5, ?_, ?_, ?_, ?_, ?_⟩
      · rw [h6, hdrop1]
        simp only [requests, List.filterMap_append, List.filterMap_cons, List.filterMap_nil,
          List.take_succ_cons, List.map_cons, List.append_assoc, List.cons_append,
          List.nil_append]
      · rw [h7, hdrop]
        simp only [removals, List.filterMap_append, List.filterMap_cons, List.filterMap_nil,
          List.take_succ_cons, List.map_cons, List.append_assoc, List.cons_append,
          List.nil_append]
      · rw [h8]
        simp [dones, List.filterMap_append]
      · rw [h9]
        simp [commits, List.filterMap_append]
      · rw [h10]
        simp [helpers, List.filterMap_append]
    · have hlast : s._currentDeleteIndex + 1 = s._syncedItemsToDelete.length := by omega
      have hnil : rs = [] := by
        apply List.eq_nil_of_length_eq_zero
        omega
      subst hnil
      rw [partial_step_last env s r hp hr _ hcur hlast]
      have hd : s._syncedItemsToDelete.drop (s._currentDeleteIndex + 1) = [] := by
        rw [hlast]; simp
      simp [PartialProgress, hlast, hdrop, hd, requests, removals, dones, commits, helpers]

/-- A job started on a directory with selective-sync descendants and the
non-empty synced-descendant list `first :: rest`, after `rs.length` transport
successes (at most one per entry). -/
theorem run_partial_ok (env : Env J) (item : SyncFileItem) (j : J) (flag : Bool) (n : Nat)
    (first : String) (rest : List String) (rs : List Reply)
    (hdir : item.isDirectory = true)
    (hsel : env.db.hasSelectiveSyncDescendants j item._file = true)
    (hlist : env.db.getSyncedDescendants j item._file = first :: rest)
    (hok : ∀ r ∈ rs, r.transportOk) (hle : rs.length ≤ rest.length + 1) :
    (run env (construct item false flag j n) (rs.map Input.finishedSignal))._item = item ∧
    (run env (construct item false flag j n) (rs.map Input.finishedSignal))._syncedItemsToDelete =
      first :: rest ∧
    (run env (construct item false flag j n) (rs.map Input.finishedSignal))._currentDeleteIndex =
      rs.length ∧
    (run env (construct item false flag j n) (rs.map Input.finishedSignal)).helperPending =
      false ∧
    (run env (construct item false flag j n) (rs.map Input.finishedSignal)).pendingSignal =
      (if rs.length < rest.length + 1 then some Slot.slotPartialDeleteJobFinished else none) ∧
    requests (run env (construct item false flag j n) (rs.map Input.finishedSignal)).trace =
      ((first :: rest).take (rs.length + 1)).map (partialJobFor env item) ∧
    removals (run env (construct item false flag j n) (rs.map Input.finishedSignal)).trace =
      ((first :: rest).take rs.length).map (fun p => (p, false)) ∧
    dones (run env (construct item false flag j n) (rs.map Input.finishedSignal)).trace =
      (if rs.length < rest.length + 1 then [] else [(Status.Success, "", ErrorCategory.NoError)]) ∧
    commits (run env (construct item false flag j n) (rs.map Input.finishedSignal)).trace = [] ∧
    helpers (run env (construct item false flag j n) (rs.map Input.finishedSignal)).trace = [] := by
  have hstart := start_partial_mode env (construct item false flag j n) rfl hdir hsel first rest
    rfl hlist
  simp only [construct] at hstart
  have hp := partial_run_ok env rs (start env (construct item false flag j n))
    (by simp only [construct, hstart]) hok (by simp [construct, hstart])
    (by simpa [construct, hstart] using hle)
  unfold run
  generalize List.foldl (deliver env) (start env (construct item false flag j n))
    (List.map Input.finishedSignal rs) = sf at hp ⊢
  simp only [construct, hstart, PartialProgress] at hp
  obtain ⟨h1, h2, h3, h4, h5, h6, h7, h8, h9, h10⟩ := hp
  refine ⟨h1, h2, by simpa using h3, h4, by simpa using h5, ?_, ?_, ?_, ?_, ?_⟩
  · rw [h6]
    simp [requests]
  · rw [h7]
    simp [removals]
  · rw [h8]
    simp [dones]
  · rw [h9]
    simp [commits]
  · rw [h10]
    simp [helpers]

/-- The remote path of the examples is a fixed prefix before the relative
path, hence injective. -/
theorem sampleEnv_fullRemotePath_injective (excludedDirs synced failing : List String) :
    Function.Injective (sampleEnv excludedDirs synced failing).fullRemotePath := by
  intro a b h
  have h' := congrArg String.data h
  simp only [sampleEnv, String.data_append] at h'
  exact String.ext (List.append_cancel_left h')

/-! ## C1: partial delete, every response a transport success -/

/-- C1, as stated, fails at the abort check: for a directory with
selective-sync descendants and the one synced descendant `d/a`, whose only
response is a success, a job started while the scheduler's abort flag is set
issues no delete request and never calls `done`. -/
theorem partial_delete_all_success_counterexample :
    (sampleItem "d" true).isDirectory = true ∧
    (sampleEnv ["d"] ["d/a"] []).db.hasSelectiveSyncDescendants ["d/a"] "d" = true ∧
    (sampleEnv ["d"] ["d/a"] []).db.getSyncedDescendants ["d/a"] "d" = ["d/a"] ∧
    (sampleReply NetworkError.NoError 204).transportOk ∧
    requests (run (sampleEnv ["d"] ["d/a"] []) (construct (sampleItem "d" true) true false ["d/a"] 0)
      [Input.finishedSignal (sampleReply NetworkError.NoError 204)]).trace = [] ∧
    dones (run (sampleEnv ["d"] ["d/a"] []) (construct (sampleItem "d" true) true false ["d/a"] 0)
      [Input.finishedSignal (sampleReply NetworkError.NoError 204)]).trace = [] := by
  decide

/-- C1 (amended): for a directory item with selective-sync descendants whose
synced-descendant list is non-empty and does not contain the directory's own
path, started while no global abort is requested: if every one of the N
responses is a transport success (`NoError` or `ContentNotFoundError`), the
job issues exactly the N partial-step requests of the list entries, in list
order, none of them for the directory's own remote path, and calls
`done(Success)` once. -/
theorem partial_delete_all_success (env : Env J) (item : SyncFileItem) (j : J) (flag : Bool)
    (n : Nat) (replies : List Reply)
    (hdir : item.isDirectory = true)
    (hsel : env.db.hasSelectiveSyncDescendants j item._file = true)
    (hne : env.db.getSyncedDescendants j item._file ≠ [])
    (hown : item._file ∉ env.db.getSyncedDescendants j item._file)
    (hinj : Function.Injective env.fullRemotePath)
    (hlen : replies.length = (env.db.getSyncedDescendants j item._file).length)
    (hok : ∀ r ∈ replies, r.transportOk) :
    requests (run env (construct item false flag j n) (replies.map Input.finishedSignal)).trace =
      (env.db.getSyncedDescendants j item._file).map (partialJobFor env item) ∧
    (∀ q ∈ requests
        (run env (construct item false flag j n) (replies.map Input.finishedSignal)).trace,
      q.path ≠ env.fullRemotePath item._file) ∧
    dones (run env (construct item false flag j n) (replies.map Input.finishedSignal)).trace =
      [(Status.Success, "", ErrorCategory.NoError)] := by
  obtain ⟨first, rest, hlist⟩ := List.exists_cons_of_ne_nil hne
  have hp := run_partial_ok env item j flag n first rest replies hdir hsel hlist hok
    (by simp [hlen, hlist])
  have hlen' : replies.length = rest.length + 1 := by simp [hlen, hlist]
  have hreq := hp.2.2.2.2.2.1
  have hdone := hp.2.2.2.2.2.2.2.1
  rw [hlen', List.take_of_length_le (by simp)] at hreq
  rw [hlist]
  refine ⟨hreq, ?_, ?_⟩
  · intro q hq
    rw [hreq] at hq
    obtain ⟨p, hpmem, rfl⟩ := List.mem_map.mp hq
    intro heq
    have hpe : p = item._file := hinj heq
    exact hown (by rw [hlist, ← hpe]; exact hpmem)
  · rw [hdone]
    simp [hlen']

/-- C1 (amended) at a concrete input: directory `d` with the synced
descendants `d/a`, `d/b`, both responses successes. -/
theorem partial_delete_all_success_witness :
    requests (run (sampleEnv ["d"] ["d/a", "d/b"] [])
        (construct (sampleItem "d" true) false false ["d/a", "d/b"] 0)
        ([sampleReply NetworkError.NoError 204,
          sampleReply NetworkError.ContentNotFoundError 404].map Input.finishedSignal)).trace =
      ((sampleEnv ["d"] ["d/a", "d/b"] []).db.getSyncedDescendants ["d/a", "d/b"]
        (sampleItem "d" true)._file).map
        (partialJobFor (sampleEnv ["d"] ["d/a", "d/b"] []) (sampleItem "d" true)) ∧
    (∀ q ∈ requests (run (sampleEnv ["d"] ["d/a", "d/b"] [])
        (construct (sampleItem "d" true) false false ["d/a", "d/b"] 0)
        ([sampleReply NetworkError.NoError 204,
          sampleReply NetworkError.ContentNotFoundError 404].map Input.finishedSignal)).trace,
      q.path ≠ (sampleEnv ["d"] ["d/a", "d/b"] []).fullRemotePath (sampleItem "d" true)._file) ∧
    dones (run (sampleEnv ["d"] ["d/a", "d/b"] [])
        (construct (sampleItem "d" true) false false ["d/a", "d/b"] 0)
        ([sampleReply NetworkError.NoError 204,
          sampleReply NetworkError.ContentNotFoundError 404].map Input.finishedSignal)).trace =
      [(Status.Success, "", ErrorCategory.NoError)] :=
  partial_delete_all_success (sampleEnv ["d"] ["d/a", "d/b"] []) (sampleItem "d" true)
    ["d/a", "d/b"] false 0
    [sampleReply NetworkError.NoError 204, sampleReply NetworkError.ContentNotFoundError 404]
    (by decide) (by decide) (by decide) (by decide)
    (sampleEnv_fullRemotePath_injective _ _ _) (by decide) (by decide)

/-! ## A job with nothing in flight -/

/-- What `abort` leaves untouched: every member but the trace, and every
request, helper start, journal call and `done` recorded in the trace. -/
theorem abort_frame (s : State J) (abortType : AbortType) :
    (abort s abortType).pendingSignal = s.pendingSignal ∧
    (abort s abortType).helperPending = s.helperPending ∧
    (abort s abortType)._item = s._item ∧
    (abort s abortType)._syncedItemsToDelete = s._syncedItemsToDelete ∧
    (abort s abortType)._currentDeleteIndex = s._currentDeleteIndex ∧
    requests (abort s abortType).trace = requests s.trace ∧
    helpers (abort s abortType).trace = helpers s.trace ∧
    removals (abort s abortType).trace = removals s.trace ∧
    commits (abort s abortType).trace = commits s.trace ∧
    dones (abort s abortType).trace = dones s.trace := by
  unfold abort
  cases s._job <;> cases abortType <;>
    simp [emit, requests, helpers, removals, commits, dones]

/-- Once nothing is in flight no input makes the job issue a request, start a
helper, touch the journal, move the cursor or call `done`. -/
theorem settled_run (env : Env J) (inputs : List Input) :
    ∀ s : State J, s.pendingSignal = none → s.helperPending = false →
      (inputs.foldl (deliver env) s).pendingSignal = none ∧
      (inputs.foldl (deliver env) s).helperPending = false ∧
      (inputs.foldl (deliver env) s)._item = s._item ∧
      (inputs.foldl (deliver env) s)._syncedItemsToDelete = s._syncedItemsToDelete ∧
      (inputs.foldl (deliver env) s)._currentDeleteIndex = s._currentDeleteIndex ∧
      requests (inputs.foldl (deliver env) s).trace = requests s.trace ∧
      helpers (inputs.foldl (deliver env) s).trace = helpers s.trace ∧
      removals (inputs.foldl (deliver env) s).trace = removals s.trace ∧
      commits (inputs.foldl (deliver env) s).trace = commits s.trace ∧
      dones (inputs.foldl (deliver env) s).trace = dones s.trace := by
  induction inputs with
  | nil => intro s hp hh; simp [hp, hh]
  | cons i inputs ih =>
    intro s hp hh
    simp only [List.foldl_cons]
    have hstep : (deliver env s i).pendingSignal = none ∧
        (deliver env s i).helperPending = false ∧
        (deliver env s i)._item = s._item ∧
        (deliver env s i)._syncedItemsToDelete = s._syncedItemsToDelete ∧
        (deliver env s i)._currentDeleteIndex = s._currentDeleteIndex ∧
        requests (deliver env s i).trace = requests s.trace ∧
        helpers (deliver env s i).trace = helpers s.trace ∧
        removals (deliver env s i).trace = removals s.trace ∧
        commits (deliver env s i).trace = commits s.trace ∧
        dones (deliver env s i).trace = dones s.trace := by
      cases i with
      | finishedSignal r => simp [deliver, hp, hh]
      | helperFinished b e m => simp [deliver, hp, hh]
      | abort t =>
        have h := abort_frame s t
        simp only [deliver]
        rw [hp, hh] at h
        exact h
    obtain ⟨a1, a2, a3, a4, a5, a6, a7, a8, a9, a10⟩ := hstep
    obtain ⟨b1, b2, b3, b4, b5, b6, b7, b8, b9, b10⟩ := ih (deliver env s i) a1 a2
    exact ⟨b1, b2, b3.trans a3, b4.trans a4, b5.trans a5, b6.trans a6, b7.trans a7,
      b8.trans a8, b9.trans a9, b10.trans a10⟩

/-- Once nothing is in flight no input touches the journal. -/
theorem settled_journal (env : Env J) (inputs : List Input) :
    ∀ s : State J, s.pendingSignal = none → s.helperPending = false →
      (inputs.foldl (deliver env) s)._journal = s._journal := by
  induction inputs with
  | nil => intro s _ _; rfl
  | cons i inputs ih =>
    intro s hp hh
    simp only [List.foldl_cons]
    have hstep : (deliver env s i).pendingSignal = none ∧
        (deliver env s i).helperPending = false ∧
        (deliver env s i)._journal = s._journal := by
      cases i with
      | finishedSignal r => simp [deliver, hp, hh]
      | helperFinished b e m => simp [deliver, hp, hh]
      | abort t =>
        obtain ⟨a1, a2, -⟩ := abort_frame s t
        refine ⟨by simpa [deliver, hp] using a1, by simpa [deliver, hh] using a2, ?_⟩
        simp only [deliver, abort]
        cases s._job.isSome <;> cases t <;> simp [emit]
    exact (ih _ hstep.1 hstep.2.1).trans hstep.2.2

/-- Feeding transport successes to a job in partial mode leaves the journal
that `deleteFileRecord` leaves when called for the entries from the cursor
on, one call per success, in list order. -/
theorem partial_run_journal (env : Env J) (rs : List Reply) :
    ∀ s : State J,
      s.pendingSignal = some Slot.slotPartialDeleteJobFinished →
      (∀ r ∈ rs, r.transportOk) →
      s._currentDeleteIndex < s._syncedItemsToDelete.length →
      s._currentDeleteIndex + rs.length ≤ s._syncedItemsToDelete.length →
      ((rs.map Input.finishedSignal).foldl (deliver env) s)._journal =
        journalAfter env ((s._syncedItemsToDelete.drop s._currentDeleteIndex).take rs.length)
          s._journal := by
  induction rs with
  | nil =>
    intro s _ _ _ _
    simp [journalAfter]
  | cons r rs ih =>
    intro s hp hok hlt hle
    have hr : r.transportOk := hok r (List.mem_cons_self _ _)
    have hrs : ∀ r' ∈ rs, r'.transportOk := fun r' h => hok r' (List.mem_cons_of_mem _ h)
    have hcur : s._syncedItemsToDelete[s._currentDeleteIndex]? =
        some (s._syncedItemsToDelete[s._currentDeleteIndex]) := List.getElem?_eq_getElem hlt
    have hdrop : s._syncedItemsToDelete.drop s._currentDeleteIndex =
        s._syncedItemsToDelete[s._currentDeleteIndex] ::
          s._syncedItemsToDelete.drop (s._currentDeleteIndex + 1) :=
      List.drop_eq_getElem_cons hlt
    simp only [List.map_cons, List.foldl_cons, List.length_cons] at hle ⊢
    rw [hdrop]
    simp only [List.take_succ_cons, journalAfter, List.foldl_cons]
    by_cases hnext : s._currentDeleteIndex + 1 < s._syncedItemsToDelete.length
    · have hn : s._syncedItemsToDelete[s._currentDeleteIndex + 1]? =
          some (s._syncedItemsToDelete[s._currentDeleteIndex + 1]) :=
        List.getElem?_eq_getElem hnext
      have hs1 := partial_step_next env s r hp hr _ _ hcur hn
      have h := ih (deliver env s (Input.finishedSignal r)) (by rw [hs1]) hrs
        (by rw [hs1]; simpa using hnext) (by rw [hs1]; simp only; omega)
      rw [h, hs1]
      rfl
    · have hlast : s._currentDeleteIndex + 1 = s._syncedItemsToDelete.length := by omega
      have hnil : rs = [] := by
        apply List.eq_nil_of_length_eq_zero
        omega
      subst hnil
      rw [partial_step_last env s r hp hr _ hcur hlast]
      simp

/-! ## C2: partial delete, fail-fast on the first transport failure -/

/-- C2, as stated, fails on "are removed": a failed removal is only logged
(lines 217-219). With N = 5 descendants, the response for entry 2 a timeout
and a journal that cannot remove the records of `d/a` and `d/b`, the job calls
`deleteFileRecord` for entries 0 and 1, both calls fail, it reports
`SoftError` once, and the journal still holds all five records. -/
theorem partial_delete_fail_fast_counterexample :
    (sampleEnv ["d"] ["d/a", "d/b", "d/c", "d/e", "d/f"] ["d/a", "d/b"]).db.getSyncedDescendants
      ["d/a", "d/b", "d/c", "d/e", "d/f"] "d" = ["d/a", "d/b", "d/c", "d/e", "d/f"] ∧
    (sampleReply NetworkError.NoError 204).transportOk ∧
    ¬ (sampleReply NetworkError.TimeoutError 0).transportOk ∧
    (run (sampleEnv ["d"] ["d/a", "d/b", "d/c", "d/e", "d/f"] ["d/a", "d/b"])
      (construct (sampleItem "d" true) false false ["d/a", "d/b", "d/c", "d/e", "d/f"] 0)
      [Input.finishedSignal (sampleReply NetworkError.NoError 204),
       Input.finishedSignal (sampleReply NetworkError.NoError 204),
       Input.finishedSignal (sampleReply NetworkError.TimeoutError 0)]).trace =
      [Event.hasSelectiveSyncDescendants "d", Event.getSyncedDescendants "d",
       Event.deleteJobStart (partialJobFor
        (sampleEnv ["d"] ["d/a", "d/b", "d/c", "d/e", "d/f"] ["d/a", "d/b"])
        (sampleItem "d" true) "d/a"),
       Event.deleteFileRecord "d/a" false false,
       Event.deleteJobStart (partialJobFor
        (sampleEnv ["d"] ["d/a", "d/b", "d/c", "d/e", "d/f"] ["d/a", "d/b"])
        (sampleItem "d" true) "d/b"),
       Event.deleteFileRecord "d/b" false false,
       Event.deleteJobStart (partialJobFor
        (sampleEnv ["d"] ["d/a", "d/b", "d/c", "d/e", "d/f"] ["d/a", "d/b"])
        (sampleItem "d" true) "d/c"),
       Event.done Status.SoftError "transport error" ErrorCategory.GenericError] ∧
    (run (sampleEnv ["d"] ["d/a", "d/b", "d/c", "d/e", "d/f"] ["d/a", "d/b"])
      (construct (sampleItem "d" true) false false ["d/a", "d/b", "d/c", "d/e", "d/f"] 0)
      [Input.finishedSignal (sampleReply NetworkError.NoError 204),
       Input.finishedSignal (sampleReply NetworkError.NoError 204),
       Input.finishedSignal (sampleReply NetworkError.TimeoutError 0)])._journal =
      ["d/a", "d/b", "d/c", "d/e", "d/f"] := by
  decide

/-- C2 (amended): in partial mode with the synced-descendant list `L`, if the
responses for entries 0..k-1 are transport successes and the response for
entry k (k < N) is any other transport error, then whatever arrives later:
`deleteFileRecord` has been called for entries 0..k-1 in that order, once
each, and for no other entry; the journal is the one those calls leave, each
made on the journal the previous one left, so a record is removed exactly
when its call removes it and entries k..N-1 are untouched; the requests
issued are those for entries 0..k and none for entries k+1..N-1; the cursor
stays at k; and `done` has been called exactly once, with `SoftError` and the
failed request's error string. -/
theorem partial_delete_fail_fast (env : Env J) (item : SyncFileItem) (j : J) (flag : Bool)
    (n k : Nat) (L : List String) (oks : List Reply) (bad : Reply) (later : List Input)
    (hdir : item.isDirectory = true)
    (hsel : env.db.hasSelectiveSyncDescendants j item._file = true)
    (hlist : env.db.getSyncedDescendants j item._file = L)
    (hk : k < L.length) (hlen : oks.length = k)
    (hok : ∀ r ∈ oks, r.transportOk) (hbad : ¬ bad.transportOk) :
    removals (run env (construct item false flag j n)
        ((oks ++ [bad]).map Input.finishedSignal ++ later)).trace =
      (L.take k).map (fun p => (p, false)) ∧
    (run env (construct item false flag j n)
        ((oks ++ [bad]).map Input.finishedSignal ++ later))._journal =
      journalAfter env (L.take k) j ∧
    requests (run env (construct item false flag j n)
        ((oks ++ [bad]).map Input.finishedSignal ++ later)).trace =
      (L.take (k + 1)).map (partialJobFor env item) ∧
    (run env (construct item false flag j n)
        ((oks ++ [bad]).map Input.finishedSignal ++ later))._currentDeleteIndex = k ∧
    dones (run env (construct item false flag j n)
        ((oks ++ [bad]).map Input.finishedSignal ++ later)).trace =
      [(Status.SoftError, bad.errorString, ErrorCategory.GenericError)] ∧
    commits (run env (construct item false flag j n)
        ((oks ++ [bad]).map Input.finishedSignal ++ later)).trace = [] := by
  obtain ⟨first, rest, rfl⟩ := List.exists_cons_of_ne_nil (List.ne_nil_of_length_pos
    (Nat.lt_of_le_of_lt (Nat.zero_le k) hk))
  have hlt : oks.length < rest.length + 1 := by simpa [hlen] using hk
  obtain ⟨h1, h2, h3, h4, h5, h6, h7, h8, h9, -⟩ :=
    run_partial_ok env item j flag n first rest oks hdir hsel hlist hok (Nat.le_of_lt hlt)
  have hstart := start_partial_mode env (construct item false flag j n) rfl hdir hsel first rest
    rfl hlist
  simp only [construct] at hstart
  have hj : (run env (construct item false flag j n) (oks.map Input.finishedSignal))._journal =
      journalAfter env ((first :: rest).take oks.length) j := by
    have h := partial_run_journal env oks (start env (construct item false flag j n))
      (by simp only [construct, hstart]) hok (by simp [construct, hstart])
      (by simpa [construct, hstart] using Nat.le_of_lt hlt)
    simpa [run, construct, hstart] using h
  have hrun : run env (construct item false flag j n)
      ((oks ++ [bad]).map Input.finishedSignal ++ later) =
      later.foldl (deliver env) (deliver env
        (run env (construct item false flag j n) (oks.map Input.finishedSignal))
        (Input.finishedSignal bad)) := by
    simp [run, List.foldl_append]
  rw [hrun]
  generalize run env (construct item false flag j n) (oks.map Input.finishedSignal) = sk
    at h1 h2 h3 h4 h5 h6 h7 h8 h9 hj ⊢
  rw [if_pos hlt] at h5 h8
  have hfail := partial_step_failed env sk bad h5 hbad
  obtain ⟨-, -, -, -, c5, c6, -, c8, c9, c10⟩ :=
    settled_run env later (deliver env sk (Input.finishedSignal bad))
      (by rw [hfail]) (by rw [hfail]; exact h4)
  have cj := settled_journal env later (deliver env sk (Input.finishedSignal bad))
    (by rw [hfail]) (by rw [hfail]; exact h4)
  rw [c5, c6, c8, c9, c10, cj, hfail]
  subst hlen
  refine ⟨?_, hj, ?_, h3, ?_, ?_⟩
  · simp [removals, List.filterMap_append] at h7 ⊢
    exact h7
  · simp [requests, List.filterMap_append] at h6 ⊢
    exact h6
  · simp [dones, List.filterMap_append] at h8 ⊢
    exact h8
  · simp [commits, List.filterMap_append] at h9 ⊢
    exact h9

/-- C2 (amended) at the concrete input of the claim: N = 5 descendants, the
response for entry 2 a timeout, a journal that removes what it is asked to;
the records of entries 0 and 1 are gone, those of entries 2 to 4 remain. -/
theorem partial_delete_fail_fast_witness :
    removals (run (sampleEnv ["d"] ["d/a", "d/b", "d/c", "d/e", "d/f"] [])
        (construct (sampleItem "d" true) false false ["d/a", "d/b", "d/c", "d/e", "d/f"] 0)
        (([sampleReply NetworkError.NoError 204,
            sampleReply NetworkError.ContentNotFoundError 404] ++
          [sampleReply NetworkError.TimeoutError 0]).map Input.finishedSignal ++
          [Input.finishedSignal (sampleReply NetworkError.NoError 204)])).trace =
      [("d/a", false), ("d/b", false)] ∧
    (run (sampleEnv ["d"] ["d/a", "d/b", "d/c", "d/e", "d/f"] [])
        (construct (sampleItem "d" true) false false ["d/a", "d/b", "d/c", "d/e", "d/f"] 0)
        (([sampleReply NetworkError.NoError 204,
            sampleReply NetworkError.ContentNotFoundError 404] ++
          [sampleReply NetworkError.TimeoutError 0]).map Input.finishedSignal ++
          [Input.finishedSignal (sampleReply NetworkError.NoError 204)]))._journal =
      ["d/c", "d/e", "d/f"] ∧
    requests (run (sampleEnv ["d"] ["d/a", "d/b", "d/c", "d/e", "d/f"] [])
        (construct (sampleItem "d" true) false false ["d/a", "d/b", "d/c", "d/e", "d/f"] 0)
        (([sampleReply NetworkError.NoError 204,
            sampleReply NetworkError.ContentNotFoundError 404] ++
          [sampleReply NetworkError.TimeoutError 0]).map Input.finishedSignal ++
          [Input.finishedSignal (sampleReply NetworkError.NoError 204)])).trace =
      (["d/a", "d/b", "d/c"]).map
        (partialJobFor (sampleEnv ["d"] ["d/a", "d/b", "d/c", "d/e", "d/f"] [])
          (sampleItem "d" true)) ∧
    (run (sampleEnv ["d"] ["d/a", "d/b", "d/c", "d/e", "d/f"] [])
        (construct (sampleItem "d" true) false false ["d/a", "d/b", "d/c", "d/e", "d/f"] 0)
        (([sampleReply NetworkError.NoError 204,
            sampleReply NetworkError.ContentNotFoundError 404] ++
          [sampleReply NetworkError.TimeoutError 0]).map Input.finishedSignal ++
          [Input.finishedSignal (sampleReply NetworkError.NoError 204)]))._currentDeleteIndex =
      2 ∧
    dones (run (sampleEnv ["d"] ["d/a", "d/b", "d/c", "d/e", "d/f"] [])
        (construct (sampleItem "d" true) false false ["d/a", "d/b", "d/c", "d/e", "d/f"] 0)
        (([sampleReply NetworkError.NoError 204,
            sampleReply NetworkError.ContentNotFoundError 404] ++
          [sampleReply NetworkError.TimeoutError 0]).map Input.finishedSignal ++
          [Input.finishedSignal (sampleReply NetworkError.NoError 204)])).trace =
      [(Status.SoftError, "transport error", ErrorCategory.GenericError)] ∧
    commits (run (sampleEnv ["d"] ["d/a", "d/b", "d/c", "d/e", "d/f"] [])
        (construct (sampleItem "d" true) false false ["d/a", "d/b", "d/c", "d/e", "d/f"] 0)
        (([sampleReply NetworkError.NoError 204,
            sampleReply NetworkError.ContentNotFoundError 404] ++
          [sampleReply NetworkError.TimeoutError 0]).map Input.finishedSignal ++
          [Input.finishedSignal (sampleReply NetworkError.NoError 204)])).trace = [] :=
  partial_delete_fail_fast (sampleEnv ["d"] ["d/a", "d/b", "d/c", "d/e", "d/f"] [])
    (sampleItem "d" true) ["d/a", "d/b", "d/c", "d/e", "d/f"] false 0 2
    ["d/a", "d/b", "d/c", "d/e", "d/f"]
    [sampleReply NetworkError.NoError 204, sampleReply NetworkError.ContentNotFoundError 404]
    (sampleReply NetworkError.TimeoutError 0)
    [Input.finishedSignal (sampleReply NetworkError.NoError 204)]
    (by decide) (by decide) (by decide) (by decide) (by decide) (by decide) (by decide)

/-! ## The direct delete -/

/-- The state a job on the direct path is in once `start` has returned: its
one request is in flight and nothing else has happened. -/
theorem start_direct_facts (env : Env J) (item : SyncFileItem) (j : J) (flag : Bool) (n : Nat)
    (hnp : ¬ (item.isDirectory = true ∧ env.db.hasSelectiveSyncDescendants j item._file = true))
    (hname : item._encryptedFileName = "") (henc : item.isEncrypted = false) :
    (start env (construct item false flag j n)).pendingSignal =
      some Slot.slotDeleteJobFinished ∧
    (start env (construct item false flag j n)).helperPending = false ∧
    (start env (construct item false flag j n))._item = item ∧
    (start env (construct item false flag j n))._journal = j ∧
    (start env (construct item false flag j n)).trace =
      (if item.isDirectory = true then [Event.hasSelectiveSyncDescendants item._file] else []) ++
        [Event.deleteJobStart (directJobFor env item)] := by
  rw [start_direct env (construct item false flag j n) rfl hnp hname henc]
  simp [construct, createDeleteJob, emit, directJobFor]

/-- The direct slot on a transport failure: the classifier's tier is reported
and the journal is not touched. -/
theorem direct_step_failed (env : Env J) (s : State J) (r : Reply)
    (hpending : s.pendingSignal = some Slot.slotDeleteJobFinished) (hbad : ¬ r.transportOk) :
    (deliver env s (Input.finishedSignal r)).pendingSignal = none ∧
    (deliver env s (Input.finishedSignal r)).helperPending = s.helperPending ∧
    (deliver env s (Input.finishedSignal r)).trace = s.trace ++
      [Event.done (env.classifyError r.error r.httpStatus).1 r.errorString
        (env.errorCategoryFromNetworkError r.error)] := by
  have h : r.error ≠ NetworkError.NoError ∧ r.error ≠ NetworkError.ContentNotFoundError := by
    unfold Reply.transportOk at hbad
    tauto
  simp [deliver, hpending, slotDeleteJobFinished, h, done, emit]

/-- The direct slot on a transport success with a status other than 204 and
404: `NormalError` naming status and reason phrase, the journal untouched. -/
theorem direct_step_wrong_status (env : Env J) (s : State J) (r : Reply)
    (hpending : s.pendingSignal = some Slot.slotDeleteJobFinished) (hok : r.transportOk)
    (hst : r.httpStatus ≠ 204 ∧ r.httpStatus ≠ 404) :
    (deliver env s (Input.finishedSignal r)).pendingSignal = none ∧
    (deliver env s (Input.finishedSignal r)).helperPending = s.helperPending ∧
    (deliver env s (Input.finishedSignal r)).trace = s.trace ++
      [Event.done Status.NormalError (wrongStatusMessage r.httpStatus r.reasonPhrase)
        ErrorCategory.GenericError] := by
  have h : ¬ (r.error ≠ NetworkError.NoError ∧ r.error ≠ NetworkError.ContentNotFoundError) := by
    unfold Reply.transportOk at hok
    tauto
  simp [deliver, hpending, slotDeleteJobFinished, h, hst, done, emit, wrongStatusMessage]

/-- The direct slot on an acceptable response: one `deleteFileRecord` for the
item, then `commit` and `done(Success)` if it succeeded, `done(NormalError)`
alone if it did not. -/
theorem direct_step_accepted (env : Env J) (s : State J) (r : Reply)
    (hpending : s.pendingSignal = some Slot.slotDeleteJobFinished) (hok : r.transportOk)
    (hst : r.httpStatus = 204 ∨ r.httpStatus = 404) :
    (deliver env s (Input.finishedSignal r)).pendingSignal = none ∧
    (deliver env s (Input.finishedSignal r)).helperPending = s.helperPending ∧
    (deliver env s (Input.finishedSignal r)).trace = s.trace ++
      (Event.deleteFileRecord s._item._originalFile s._item.isDirectory
          (env.db.deleteFileRecord s._journal s._item._originalFile s._item.isDirectory).1 ::
        if (env.db.deleteFileRecord s._journal s._item._originalFile s._item.isDirectory).1 = true
        then [Event.commit "Remote Remove", Event.done Status.Success "" ErrorCategory.NoError]
        else [Event.done Status.NormalError (recordMessage s._item._originalFile)
          ErrorCategory.GenericError]) := by
  have h : ¬ (r.error ≠ NetworkError.NoError ∧ r.error ≠ NetworkError.ContentNotFoundError) := by
    unfold Reply.transportOk at hok
    tauto
  have h2 : ¬ (r.httpStatus ≠ 204 ∧ r.httpStatus ≠ 404) := by tauto
  simp only [deliver, hpending, slotDeleteJobFinished, h, h2, if_false]
  cases hres : (env.db.deleteFileRecord s._journal s._item._originalFile s._item.isDirectory).1 <;>
    simp [done, emit, recordMessage, hres]

/-- A run that is one response to the job's request followed by any inputs:
the later inputs change nothing the trace readers see. -/
theorem run_after_response (env : Env J) (s : State J) (r : Reply) (later : List Input)
    (hp : (deliver env (start env s) (Input.finishedSignal r)).pendingSignal = none)
    (hh : (deliver env (start env s) (Input.finishedSignal r)).helperPending = false) :
    requests (run env s (Input.finishedSignal r :: later)).trace =
      requests (deliver env (start env s) (Input.finishedSignal r)).trace ∧
    helpers (run env s (Input.finishedSignal r :: later)).trace =
      helpers (deliver env (start env s) (Input.finishedSignal r)).trace ∧
    removals (run env s (Input.finishedSignal r :: later)).trace =
      removals (deliver env (start env s) (Input.finishedSignal r)).trace ∧
    commits (run env s (Input.finishedSignal r :: later)).trace =
      commits (deliver env (start env s) (Input.finishedSignal r)).trace ∧
    dones (run env s (Input.finishedSignal r :: later)).trace =
      dones (deliver env (start env s) (Input.finishedSignal r)).trace := by
  obtain ⟨-, -, -, -, -, c6, c7, c8, c9, c10⟩ := settled_run env later _ hp hh
  simp only [run, List.foldl_cons]
  exact ⟨c6, c7, c8, c9, c10⟩

/-! ## C3, C4, C8, C10: the direct delete -/

/-- C3, as stated, fails in two ways. A 204 response with no transport error
whose journal record cannot be removed ends in `NormalError`, not `Success`;
and a response carrying status 204 together with a transport error ends in
the classifier's tier, with no record removed at all. -/
theorem direct_delete_status_ok_counterexample :
    (sampleReply NetworkError.NoError 204).httpStatus = 204 ∧
    dones (run (sampleEnv [] [] ["f"]) (construct (sampleItem "f" false) false false ["f"] 0)
      [Input.finishedSignal (sampleReply NetworkError.NoError 204)]).trace =
      [(Status.NormalError, "Could not delete file record f from local DB",
        ErrorCategory.GenericError)] ∧
    (sampleReply NetworkError.OperationCanceledError 204).httpStatus = 204 ∧
    dones (run (sampleEnv [] [] []) (construct (sampleItem "f" false) false false ["f"] 0)
      [Input.finishedSignal (sampleReply NetworkError.OperationCanceledError 204)]).trace =
      [(Status.SoftError, "transport error", ErrorCategory.NetworkError)] ∧
    removals (run (sampleEnv [] [] []) (construct (sampleItem "f" false) false false ["f"] 0)
      [Input.finishedSignal (sampleReply NetworkError.OperationCanceledError 204)]).trace =
      [] := by
  decide

/-- C3 (amended): for a non-partial, non-encrypted item, if the single delete
request returns HTTP status 204 or 404 (a 404 on the first call included) with
transport error `NoError` or `ContentNotFoundError`, and the removal of its
journal record succeeds, then whatever arrives later the job has reported
`Success`, exactly once, and has removed the item's record exactly once,
followed by one commit. -/
theorem direct_delete_status_ok (env : Env J) (item : SyncFileItem) (j : J) (flag : Bool)
    (n : Nat) (r : Reply) (later : List Input)
    (hnp : ¬ (item.isDirectory = true ∧ env.db.hasSelectiveSyncDescendants j item._file = true))
    (hname : item._encryptedFileName = "") (henc : item.isEncrypted = false)
    (hok : r.transportOk) (hst : r.httpStatus = 204 ∨ r.httpStatus = 404)
    (hdb : (env.db.deleteFileRecord j item._originalFile item.isDirectory).1 = true) :
    dones (run env (construct item false flag j n) (Input.finishedSignal r :: later)).trace =
      [(Status.Success, "", ErrorCategory.NoError)] ∧
    removals (run env (construct item false flag j n) (Input.finishedSignal r :: later)).trace =
      [(item._originalFile, item.isDirectory)] ∧
    commits (run env (construct item false flag j n) (Input.finishedSignal r :: later)).trace =
      ["Remote Remove"] := by
  obtain ⟨s1, s2, s3, s4, s5⟩ := start_direct_facts env item j flag n hnp hname henc
  obtain ⟨d1, d2, d3⟩ := direct_step_accepted env _ r s1 hok hst
  obtain ⟨-, -, r3, r4, r5⟩ := run_after_response env (construct item false flag j n) r later d1
    (d2.trans s2)
  rw [r3, r4, r5, d3, s3, s4, s5, hdb]
  by_cases hd : item.isDirectory = true <;> simp [dones, removals, commits, hd]

/-- C3 (amended) at a concrete input: file `f`, not found on the first call. -/
theorem direct_delete_status_ok_witness :
    dones (run (sampleEnv [] [] []) (construct (sampleItem "f" false) false false ["f"] 0)
      [Input.finishedSignal (sampleReply NetworkError.ContentNotFoundError 404)]).trace =
      [(Status.Success, "", ErrorCategory.NoError)] ∧
    removals (run (sampleEnv [] [] []) (construct (sampleItem "f" false) false false ["f"] 0)
      [Input.finishedSignal (sampleReply NetworkError.ContentNotFoundError 404)]).trace =
      [("f", false)] ∧
    commits (run (sampleEnv [] [] []) (construct (sampleItem "f" false) false false ["f"] 0)
      [Input.finishedSignal (sampleReply NetworkError.ContentNotFoundError 404)]).trace =
      ["Remote Remove"] :=
  direct_delete_status_ok (sampleEnv [] [] []) (sampleItem "f" false) ["f"] false 0
    (sampleReply NetworkError.ContentNotFoundError 404) [] (by decide) (by decide) (by decide)
    (by decide) (by decide) (by decide)

/-- C4, as stated, fails when the response carries a transport error: a
delete answered with status 423 arrives with `UnknownContentError`, and the
job reports the classifier's tier for it, here `FileLocked`. -/
theorem direct_delete_other_status_counterexample :
    (sampleReply NetworkError.UnknownContentError 423).httpStatus ≠ 204 ∧
    (sampleReply NetworkError.UnknownContentError 423).httpStatus ≠ 404 ∧
    dones (run (sampleEnv [] [] []) (construct (sampleItem "f" false) false false ["f"] 0)
      [Input.finishedSignal (sampleReply NetworkError.UnknownContentError 423)]).trace =
      [(Status.FileLocked, "transport error", ErrorCategory.NetworkError)] := by
  decide

/-- C4 (amended): for a non-partial, non-encrypted item, if the delete
request returns an HTTP status other than 204 and 404, then `deleteFileRecord`
and `commit` are never invoked, and the job reports, exactly once,
`NormalError` naming status and reason phrase when the transport error is
`NoError` or `ContentNotFoundError`, and the classifier's tier otherwise. -/
theorem direct_delete_other_status (env : Env J) (item : SyncFileItem) (j : J) (flag : Bool)
    (n : Nat) (r : Reply) (later : List Input)
    (hnp : ¬ (item.isDirectory = true ∧ env.db.hasSelectiveSyncDescendants j item._file = true))
    (hname : item._encryptedFileName = "") (henc : item.isEncrypted = false)
    (hst : r.httpStatus ≠ 204 ∧ r.httpStatus ≠ 404) :
    removals (run env (construct item false flag j n) (Input.finishedSignal r :: later)).trace =
      [] ∧
    commits (run env (construct item false flag j n) (Input.finishedSignal r :: later)).trace =
      [] ∧
    dones (run env (construct item false flag j n) (Input.finishedSignal r :: later)).trace =
      [if r.transportOk then
        (Status.NormalError, wrongStatusMessage r.httpStatus r.reasonPhrase,
          ErrorCategory.GenericError)
       else
        ((env.classifyError r.error r.httpStatus).1, r.errorString,
          env.errorCategoryFromNetworkError r.error)] := by
  obtain ⟨s1, s2, s3, s4, s5⟩ := start_direct_facts env item j flag n hnp hname henc
  by_cases hok : r.transportOk
  · obtain ⟨d1, d2, d3⟩ := direct_step_wrong_status env _ r s1 hok hst
    obtain ⟨-, -, r3, r4, r5⟩ := run_after_response env (construct item false flag j n) r later
      d1 (d2.trans s2)
    rw [r3, r4, r5, d3, s5]
    by_cases hd : item.isDirectory = true <;> simp [dones, removals, commits, hd, hok]
  · obtain ⟨d1, d2, d3⟩ := direct_step_failed env _ r s1 hok
    obtain ⟨-, -, r3, r4, r5⟩ := run_after_response env (construct item false flag j n) r later
      d1 (d2.trans s2)
    rw [r3, r4, r5, d3, s5]
    by_cases hd : item.isDirectory = true <;> simp [dones, removals, commits, hd, hok]

/-- C4 (amended) at a concrete input: file `f`, a proxy answering 200. -/
theorem direct_delete_other_status_witness :
    removals (run (sampleEnv [] [] []) (construct (sampleItem "f" false) false false ["f"] 0)
      [Input.finishedSignal (sampleReply NetworkError.NoError 200)]).trace = [] ∧
    commits (run (sampleEnv [] [] []) (construct (sampleItem "f" false) false false ["f"] 0)
      [Input.finishedSignal (sampleReply NetworkError.NoError 200)]).trace = [] ∧
    dones (run (sampleEnv [] [] []) (construct (sampleItem "f" false) false false ["f"] 0)
      [Input.finishedSignal (sampleReply NetworkError.NoError 200)]).trace =
      [(Status.NormalError,
        "Wrong HTTP code returned by server. Expected 204, but received \"200 \".",
        ErrorCategory.GenericError)] :=
  direct_delete_other_status (sampleEnv [] [] []) (sampleItem "f" false) ["f"] false 0
    (sampleReply NetworkError.NoError 200) [] (by decide) (by decide) (by decide) (by decide)

/-- C8: in a direct delete, when the response is acceptable (transport error
`NoError` or `ContentNotFoundError`, HTTP status 204 or 404) the job calls
`deleteFileRecord` for the item exactly once; if that returns false it
reports `NormalError` and never calls `commit`; if it returns true it calls
`commit` exactly once and then reports `Success`. -/
theorem direct_delete_index_convergence (env : Env J) (item : SyncFileItem) (j : J)
    (flag : Bool) (n : Nat) (r : Reply) (later : List Input)
    (hnp : ¬ (item.isDirectory = true ∧ env.db.hasSelectiveSyncDescendants j item._file = true))
    (hname : item._encryptedFileName = "") (henc : item.isEncrypted = false)
    (hok : r.transportOk) (hst : r.httpStatus = 204 ∨ r.httpStatus = 404) :
    removals (run env (construct item false flag j n) (Input.finishedSignal r :: later)).trace =
      [(item._originalFile, item.isDirectory)] ∧
    commits (run env (construct item false flag j n) (Input.finishedSignal r :: later)).trace =
      (if (env.db.deleteFileRecord j item._originalFile item.isDirectory).1 = true then
        ["Remote Remove"] else []) ∧
    dones (run env (construct item false flag j n) (Input.finishedSignal r :: later)).trace =
      [if (env.db.deleteFileRecord j item._originalFile item.isDirectory).1 = true then
        (Status.Success, "", ErrorCategory.NoError)
       else
        (Status.NormalError, recordMessage item._originalFile, ErrorCategory.GenericError)] ∧
    (run env (construct item false flag j n) [Input.finishedSignal r]).trace =
      (start env (construct item false flag j n)).trace ++
        (Event.deleteFileRecord item._originalFile item.isDirectory
            (env.db.deleteFileRecord j item._originalFile item.isDirectory).1 ::
          if (env.db.deleteFileRecord j item._originalFile item.isDirectory).1 = true then
            [Event.commit "Remote Remove", Event.done Status.Success "" ErrorCategory.NoError]
          else
            [Event.done Status.NormalError (recordMessage item._originalFile)
              ErrorCategory.GenericError]) := by
  obtain ⟨s1, s2, s3, s4, s5⟩ := start_direct_facts env item j flag n hnp hname henc
  obtain ⟨d1, d2, d3⟩ := direct_step_accepted env _ r s1 hok hst
  obtain ⟨-, -, r3, r4, r5⟩ := run_after_response env (construct item false flag j n) r later d1
    (d2.trans s2)
  rw [s3, s4] at d3
  refine ⟨?_, ?_, ?_, ?_⟩
  · rw [r3, d3, s5]
    by_cases hd : item.isDirectory = true <;>
      cases (env.db.deleteFileRecord j item._originalFile item.isDirectory).1 <;>
        simp [removals, hd]
  · rw [r4, d3, s5]
    by_cases hd : item.isDirectory = true <;>
      cases (env.db.deleteFileRecord j item._originalFile item.isDirectory).1 <;>
        simp [commits, hd]
  · rw [r5, d3, s5]
    by_cases hd : item.isDirectory = true <;>
      cases (env.db.deleteFileRecord j item._originalFile item.isDirectory).1 <;>
        simp [dones, hd]
  · simpa [run] using d3

/-- C8 at a concrete input: file `f`, status 204, a journal that cannot
remove the record. -/
theorem direct_delete_index_convergence_witness :
    removals (run (sampleEnv [] [] ["f"]) (construct (sampleItem "f" false) false false ["f"] 0)
      [Input.finishedSignal (sampleReply NetworkError.NoError 204)]).trace = [("f", false)] ∧
    commits (run (sampleEnv [] [] ["f"]) (construct (sampleItem "f" false) false false ["f"] 0)
      [Input.finishedSignal (sampleReply NetworkError.NoError 204)]).trace = [] ∧
    dones (run (sampleEnv [] [] ["f"]) (construct (sampleItem "f" false) false false ["f"] 0)
      [Input.finishedSignal (sampleReply NetworkError.NoError 204)]).trace =
      [(Status.NormalError, recordMessage "f", ErrorCategory.GenericError)] ∧
    (run (sampleEnv [] [] ["f"]) (construct (sampleItem "f" false) false false ["f"] 0)
      [Input.finishedSignal (sampleReply NetworkError.NoError 204)]).trace =
      (start (sampleEnv [] [] ["f"]) (construct (sampleItem "f" false) false false ["f"] 0)).trace
        ++ [Event.deleteFileRecord "f" false false,
            Event.done Status.NormalError (recordMessage "f") ErrorCategory.GenericError] :=
  direct_delete_index_convergence (sampleEnv [] [] ["f"]) (sampleItem "f" false) ["f"] false 0
    (sampleReply NetworkError.NoError 204) [] (by decide) (by decide) (by decide) (by decide)
    (by decide)

/-- C10: in a direct delete, for every response whose transport error is
neither `NoError` nor `ContentNotFoundError`, whatever its HTTP status, the
job reports exactly the tier the classifier returns for (transport error,
HTTP status), exactly once, and neither removes the item's record nor
commits. -/
theorem direct_delete_transport_failure (env : Env J) (item : SyncFileItem) (j : J)
    (flag : Bool) (n : Nat) (r : Reply) (later : List Input)
    (hnp : ¬ (item.isDirectory = true ∧ env.db.hasSelectiveSyncDescendants j item._file = true))
    (hname : item._encryptedFileName = "") (henc : item.isEncrypted = false)
    (hbad : r.error ≠ NetworkError.NoError ∧ r.error ≠ NetworkError.ContentNotFoundError) :
    dones (run env (construct item false flag j n) (Input.finishedSignal r :: later)).trace =
      [((env.classifyError r.error r.httpStatus).1, r.errorString,
        env.errorCategoryFromNetworkError r.error)] ∧
    removals (run env (construct item false flag j n) (Input.finishedSignal r :: later)).trace =
      [] ∧
    commits (run env (construct item false flag j n) (Input.finishedSignal r :: later)).trace =
      [] := by
  obtain ⟨s1, s2, s3, s4, s5⟩ := start_direct_facts env item j flag n hnp hname henc
  have hno : ¬ r.transportOk := by
    unfold Reply.transportOk
    tauto
  obtain ⟨d1, d2, d3⟩ := direct_step_failed env _ r s1 hno
  obtain ⟨-, -, r3, r4, r5⟩ := run_after_response env (construct item false flag j n) r later d1
    (d2.trans s2)
  rw [r3, r4, r5, d3, s5]
  by_cases hd : item.isDirectory = true <;> simp [dones, removals, commits, hd]

/-- C10 at a concrete input: file `f`, a timed-out request with status 204. -/
theorem direct_delete_transport_failure_witness :
    dones (run (sampleEnv [] [] []) (construct (sampleItem "f" false) false false ["f"] 0)
      [Input.finishedSignal (sampleReply NetworkError.TimeoutError 204)]).trace =
      [(Status.SoftError, "transport error", ErrorCategory.NetworkError)] ∧
    removals (run (sampleEnv [] [] []) (construct (sampleItem "f" false) false false ["f"] 0)
      [Input.finishedSignal (sampleReply NetworkError.TimeoutError 204)]).trace = [] ∧
    commits (run (sampleEnv [] [] []) (construct (sampleItem "f" false) false false ["f"] 0)
      [Input.finishedSignal (sampleReply NetworkError.TimeoutError 204)]).trace = [] :=
  direct_delete_transport_failure (sampleEnv [] [] []) (sampleItem "f" false) ["f"] false 0
    (sampleReply NetworkError.TimeoutError 204) [] (by decide) (by decide) (by decide)
    (by decide)

/-! ## C9: selective-sync directory with nothing synced -/

/-- C9, as stated, fails at the abort check: for a directory with
selective-sync descendants and an empty synced-descendant list, `start` called
while the scheduler's abort flag is set returns without calling `done`. -/
theorem selective_sync_empty_list_counterexample :
    (sampleItem "d" true).isDirectory = true ∧
    (sampleEnv ["d"] [] []).db.hasSelectiveSyncDescendants [] "d" = true ∧
    (sampleEnv ["d"] [] []).db.getSyncedDescendants [] "d" = [] ∧
    dones (start (sampleEnv ["d"] [] []) (construct (sampleItem "d" true) true false [] 0)).trace =
      [] := by
  decide

/-- C9 (amended): for a directory item with selective-sync descendants whose
synced-descendant list is empty, encrypted or not, `start` called while no
global abort is requested only queries the journal and calls
`done(Success)`: it issues no delete request, starts no helper, leaves the
journal as it was, and nothing of the kind happens later either. -/
theorem selective_sync_empty_list (env : Env J) (item : SyncFileItem) (j : J) (flag : Bool)
    (n : Nat) (later : List Input)
    (hdir : item.isDirectory = true)
    (hsel : env.db.hasSelectiveSyncDescendants j item._file = true)
    (hempty : env.db.getSyncedDescendants j item._file = []) :
    (start env (construct item false flag j n)).trace =
      [Event.hasSelectiveSyncDescendants item._file, Event.getSyncedDescendants item._file,
       Event.done Status.Success "" ErrorCategory.NoError] ∧
    (start env (construct item false flag j n))._journal = j ∧
    requests (run env (construct item false flag j n) later).trace = [] ∧
    helpers (run env (construct item false flag j n) later).trace = [] ∧
    removals (run env (construct item false flag j n) later).trace = [] ∧
    commits (run env (construct item false flag j n) later).trace = [] ∧
    dones (run env (construct item false flag j n) later).trace =
      [(Status.Success, "", ErrorCategory.NoError)] := by
  have hstart := start_empty env (construct item false flag j n) rfl hdir hsel hempty
  simp only [construct] at hstart
  obtain ⟨-, -, -, -, -, c6, c7, c8, c9, c10⟩ :=
    settled_run env later (start env (construct item false flag j n))
      (by simp only [construct, hstart]) (by simp only [construct, hstart])
  unfold run
  rw [c6, c7, c8, c9, c10]
  simp only [construct, hstart]
  simp [requests, helpers, removals, commits, dones]

/-- C9 (amended) at a concrete input: an encrypted directory `d` with
selective-sync descendants and nothing synced beneath it. -/
theorem selective_sync_empty_list_witness :
    (start (sampleEnv ["d"] [] [])
      (construct { sampleItem "d" true with isEncrypted := true } false false [] 0)).trace =
      [Event.hasSelectiveSyncDescendants "d", Event.getSyncedDescendants "d",
       Event.done Status.Success "" ErrorCategory.NoError] ∧
    (start (sampleEnv ["d"] [] [])
      (construct { sampleItem "d" true with isEncrypted := true } false false [] 0))._journal =
      [] ∧
    requests (run (sampleEnv ["d"] [] [])
      (construct { sampleItem "d" true with isEncrypted := true } false false [] 0)
      [Input.abort AbortType.Asynchronous]).trace = [] ∧
    helpers (run (sampleEnv ["d"] [] [])
      (construct { sampleItem "d" true with isEncrypted := true } false false [] 0)
      [Input.abort AbortType.Asynchronous]).trace = [] ∧
    removals (run (sampleEnv ["d"] [] [])
      (construct { sampleItem "d" true with isEncrypted := true } false false [] 0)
      [Input.abort AbortType.Asynchronous]).trace = [] ∧
    commits (run (sampleEnv ["d"] [] [])
      (construct { sampleItem "d" true with isEncrypted := true } false false [] 0)
      [Input.abort AbortType.Asynchronous]).trace = [] ∧
    dones (run (sampleEnv ["d"] [] [])
      (construct { sampleItem "d" true with isEncrypted := true } false false [] 0)
      [Input.abort AbortType.Asynchronous]).trace =
      [(Status.Success, "", ErrorCategory.NoError)] :=
  selective_sync_empty_list (sampleEnv ["d"] [] [])
    { sampleItem "d" true with isEncrypted := true } [] false 0
    [Input.abort AbortType.Asynchronous] (by decide) (by decide) (by decide)

/-! ## C5, C7: encrypted items -/

/-- The helper's notification reaching a job whose helper is running: one
`done` with the mapped Outcome, nothing else. -/
theorem helper_step (env : Env J) (s : State J) (success : Bool) (networkError : NetworkError)
    (errorString : String) (hh : s.helperPending = true) :
    (deliver env s (Input.helperFinished success networkError errorString)).pendingSignal =
      s.pendingSignal ∧
    (deliver env s (Input.helperFinished success networkError errorString)).helperPending =
      false ∧
    (deliver env s (Input.helperFinished success networkError errorString)).trace = s.trace ++
      [Event.done (helperOutcome env s._item success networkError errorString).1
        (helperOutcome env s._item success networkError errorString).2.1
        (helperOutcome env s._item success networkError errorString).2.2] := by
  cases success
  · by_cases h : networkError = NetworkError.NoError ∨
        networkError = NetworkError.ContentNotFoundError
    · have h' : ¬ (networkError ≠ NetworkError.NoError ∧
          networkError ≠ NetworkError.ContentNotFoundError) := by tauto
      simp [deliver, hh, helperFinished, helperOutcome, h, h', done, emit]
    · have h' : networkError ≠ NetworkError.NoError ∧
          networkError ≠ NetworkError.ContentNotFoundError := by tauto
      simp [deliver, hh, helperFinished, helperOutcome, h, h', done, emit]
  · simp [deliver, hh, helperFinished, helperOutcome, done, emit]

/-- The state a job on the encrypted path is in once `start` has returned:
the helper is running, no request has been issued and `_job` is unset. -/
theorem start_encrypted_facts (env : Env J) (item : SyncFileItem) (j : J) (flag : Bool)
    (n : Nat)
    (hnp : ¬ (item.isDirectory = true ∧ env.db.hasSelectiveSyncDescendants j item._file = true))
    (henc : item._encryptedFileName ≠ "" ∨ item.isEncrypted = true) :
    (start env (construct item false flag j n)).pendingSignal = none ∧
    (start env (construct item false flag j n)).helperPending = true ∧
    (start env (construct item false flag j n))._item = item ∧
    requests (start env (construct item false flag j n)).trace = [] ∧
    removals (start env (construct item false flag j n)).trace = [] ∧
    commits (start env (construct item false flag j n)).trace = [] ∧
    dones (start env (construct item false flag j n)).trace = [] ∧
    helpers (start env (construct item false flag j n)).trace =
      [if item._encryptedFileName ≠ "" then EncryptedHelper.PropagateRemoteDeleteEncrypted
       else EncryptedHelper.PropagateRemoteDeleteEncryptedRootFolder] := by
  rw [start_encrypted env (construct item false flag j n) rfl hnp henc]
  by_cases hd : item.isDirectory = true <;>
    simp [construct, requests, removals, commits, dones, helpers, hd]

/-- While the helper is running and no request is in flight, the job issues
no request whatever the inputs, and calls `done` exactly for the helper's
first notification. -/
theorem helper_run (env : Env J) (inputs : List Input) :
    ∀ s : State J, s.pendingSignal = none → s.helperPending = true →
      requests (inputs.foldl (deliver env) s).trace = requests s.trace ∧
      dones (inputs.foldl (deliver env) s).trace = dones s.trace ++
        (match firstHelperFinished inputs with
          | some (success, networkError, errorString) =>
            [helperOutcome env s._item success networkError errorString]
          | none => []) := by
  induction inputs with
  | nil => intro s _ _; simp [firstHelperFinished]
  | cons i inputs ih =>
    intro s hp hh
    simp only [List.foldl_cons]
    cases i with
    | finishedSignal r =>
      have hs : deliver env s (Input.finishedSignal r) = s := by simp [deliver, hp]
      rw [hs]
      simpa [firstHelperFinished] using ih s hp hh
    | abort t =>
      obtain ⟨a1, a2, a3, -, -, a6, -, -, -, a10⟩ := abort_frame s t
      obtain ⟨b1, b2⟩ := ih (deliver env s (Input.abort t))
        (by simpa [deliver, hp] using a1) (by simpa [deliver, hh] using a2)
      simp only [deliver] at b1 b2 ⊢
      rw [b1, b2, a3, a6, a10]
      simp [firstHelperFinished]
    | helperFinished b e m =>
      obtain ⟨d1, d2, d3⟩ := helper_step env s b e m hh
      obtain ⟨-, -, -, -, -, c6, -, -, -, c10⟩ :=
        settled_run env inputs _ (d1.trans hp) d2
      rw [c6, c10, d3]
      simp [firstHelperFinished, requests, dones]

/-- C5, as stated, fails for encrypted directories: the selective-sync check
comes first, so an encrypted directory with selective-sync descendants and
the synced descendant `d/a` gets a partial-step delete request from the job
itself and no helper is started. -/
theorem encrypted_never_requests_counterexample :
    ({ sampleItem "d" true with isEncrypted := true } : SyncFileItem).isEncrypted = true ∧
    requests (start (sampleEnv ["d"] ["d/a"] [])
      (construct { sampleItem "d" true with isEncrypted := true } false false ["d/a"] 0)).trace =
      [{ path := "/remote.php/dav/files/alice/d/a"
         headers := []
         skipTrashbin := false
         finishedSlot := Slot.slotPartialDeleteJobFinished }] ∧
    helpers (start (sampleEnv ["d"] ["d/a"] [])
      (construct { sampleItem "d" true with isEncrypted := true } false false ["d/a"] 0)).trace =
      [] := by
  decide

/-- C5 (amended): for every encrypted item (non-empty encrypted remote
filename, or flagged encrypted) that is not a directory with selective-sync
descendants, whatever the abort flag and whatever the inputs, the job issues
no delete request of its own, and the Outcomes it reports are a function of
the helper's first `finished` notification and the helper's last error and
message alone: none before it, exactly the mapped one after it. -/
theorem encrypted_never_requests (env : Env J) (item : SyncFileItem) (j : J)
    (abortRequested flag : Bool) (n : Nat) (inputs : List Input)
    (hnp : ¬ (item.isDirectory = true ∧ env.db.hasSelectiveSyncDescendants j item._file = true))
    (henc : item._encryptedFileName ≠ "" ∨ item.isEncrypted = true) :
    requests (run env (construct item abortRequested flag j n) inputs).trace = [] ∧
    dones (run env (construct item abortRequested flag j n) inputs).trace =
      (if abortRequested = true then []
       else match firstHelperFinished inputs with
        | some (success, networkError, errorString) =>
          [helperOutcome env item success networkError errorString]
        | none => []) := by
  cases abortRequested
  · obtain ⟨s1, s2, s3, s4, -, -, s7, -⟩ := start_encrypted_facts env item j flag n hnp henc
    obtain ⟨h1, h2⟩ := helper_run env inputs (start env (construct item false flag j n)) s1 s2
    unfold run
    rw [h1, h2, s3, s4, s7]
    simp
  · obtain ⟨-, -, -, -, -, c6, -, -, -, c10⟩ :=
      settled_run env inputs (start env (construct item true flag j n))
        (by rw [start_aborted env _ rfl]; rfl) (by rw [start_aborted env _ rfl]; rfl)
    unfold run
    rw [c6, c10, start_aborted env _ rfl]
    simp [construct, requests, dones]

/-- C5 (amended) at a concrete input: the encrypted file `secret.txt`, whose
helper fails with a timeout after an abort and before a stray second
notification. -/
theorem encrypted_never_requests_witness :
    requests (run (sampleEnv [] [] [])
      (construct { sampleItem "secret.txt" false with _encryptedFileName := "4f2a" } false false
        ["secret.txt"] 0)
      [Input.abort AbortType.Asynchronous,
       Input.helperFinished false NetworkError.TimeoutError "helper failed",
       Input.helperFinished true NetworkError.NoError ""]).trace = [] ∧
    dones (run (sampleEnv [] [] [])
      (construct { sampleItem "secret.txt" false with _encryptedFileName := "4f2a" } false false
        ["secret.txt"] 0)
      [Input.abort AbortType.Asynchronous,
       Input.helperFinished false NetworkError.TimeoutError "helper failed",
       Input.helperFinished true NetworkError.NoError ""]).trace =
      [(Status.SoftError, "helper failed", ErrorCategory.GenericError)] :=
  encrypted_never_requests (sampleEnv [] [] [])
    { sampleItem "secret.txt" false with _encryptedFileName := "4f2a" } ["secret.txt"] false
    false 0
    [Input.abort AbortType.Asynchronous,
     Input.helperFinished false NetworkError.TimeoutError "helper failed",
     Input.helperFinished true NetworkError.NoError ""]
    (by decide) (by decide)

/-- C7: for an item handed to the encrypted-delete helper, on `finished(true)`
the job reports `Success` with an empty message; on `finished(false)` it
reports `NormalError` when the helper's last transport error is `NoError` or
`ContentNotFoundError`, and otherwise exactly the tier the classifier returns
for (helper's transport error, item's HTTP code); in both failure cases the
message is the helper's error string. Nothing is reported after that. -/
theorem encrypted_outcome_mapping (env : Env J) (item : SyncFileItem) (j : J) (flag : Bool)
    (n : Nat) (success : Bool) (networkError : NetworkError) (errorString : String)
    (later : List Input)
    (hnp : ¬ (item.isDirectory = true ∧ env.db.hasSelectiveSyncDescendants j item._file = true))
    (henc : item._encryptedFileName ≠ "" ∨ item.isEncrypted = true) :
    dones (run env (construct item false flag j n)
        (Input.helperFinished success networkError errorString :: later)).trace =
      [if success = true then (Status.Success, "", ErrorCategory.NoError)
       else if networkError = NetworkError.NoError ∨
          networkError = NetworkError.ContentNotFoundError then
        (Status.NormalError, errorString, ErrorCategory.GenericError)
       else
        ((env.classifyError networkError item._httpErrorCode).1, errorString,
          ErrorCategory.GenericError)] := by
  obtain ⟨s1, s2, s3, -, -, -, s7, -⟩ := start_encrypted_facts env item j flag n hnp henc
  obtain ⟨d1, d2, d3⟩ := helper_step env _ success networkError errorString s2
  obtain ⟨-, -, -, -, -, -, -, -, -, c10⟩ := settled_run env later _ (d1.trans s1) d2
  simp only [run, List.foldl_cons]
  have happ : ∀ a b : List Event, dones (a ++ b) = dones a ++ dones b := by
    intro a b
    simp [dones]
  rw [c10, d3, s3, happ, s7]
  cases success <;> simp [dones, helperOutcome]

/-- C7 at a concrete input: an encryption-enabled root folder whose helper
fails with a refused connection. -/
theorem encrypted_outcome_mapping_witness :
    dones (run (sampleEnv [] [] [])
        (construct { sampleItem "vault" true with isEncrypted := true } false false [] 0)
        [Input.helperFinished false NetworkError.ConnectionRefusedError "refused"]).trace =
      [(Status.FatalError, "refused", ErrorCategory.GenericError)] :=
  encrypted_outcome_mapping (sampleEnv [] [] [])
    { sampleItem "vault" true with isEncrypted := true } [] false 0 false
    NetworkError.ConnectionRefusedError "refused" [] (by decide) (by decide)

/-! ## C6: exactly-once completion -/

theorem dones_append (t u : List Event) : dones (t ++ u) = dones t ++ dones u := by
  simp [dones]

/-- A step that completes the job keeps the invariant: there was something
in flight, the step adds exactly one `done`, as its last effect, and leaves
nothing in flight. -/
theorem inv_of_complete (c : Nat) (hc : c ≤ 1) (s s' : State J) (delta : List Event)
    (hinv : Inv c s) (hpos : 1 ≤ pendingCount s) (htr : s'.trace = s.trace ++ delta)
    (hdone : (dones delta).length = 1) (hafter : afterFirstDone delta = [])
    (hps : s'.pendingSignal = none) (hhp : s'.helperPending = false) : Inv c s' := by
  obtain ⟨i1, i2, i3⟩ := hinv
  have hnil : dones s.trace = [] := List.eq_nil_of_length_eq_zero (by omega)
  refine ⟨?_, ?_, ?_⟩
  · rw [htr, dones_append, hnil]
    simp only [pendingCount, hps, hhp, List.nil_append, hdone]
    simp only [hnil, List.length_nil] at i1
    simp
    omega
  · rw [htr, afterFirstDone_append_of_no_done _ _ hnil, hafter]
    exact quiet_nil
  · intro h
    rw [hps] at h
    exact absurd h (by simp)

/-- A step that keeps the job going keeps the invariant: there was something
in flight, there still is, and the step adds no `done`. -/
theorem inv_of_continue (c : Nat) (hc : c ≤ 1) (s s' : State J) (delta : List Event)
    (hinv : Inv c s) (hpos : 1 ≤ pendingCount s) (htr : s'.trace = s.trace ++ delta)
    (hdone : dones delta = []) (hcount : pendingCount s' = pendingCount s)
    (hidx : s'.pendingSignal = some Slot.slotPartialDeleteJobFinished →
      s'._currentDeleteIndex < s'._syncedItemsToDelete.length) : Inv c s' := by
  obtain ⟨i1, i2, i3⟩ := hinv
  have hnil : dones s.trace = [] := List.eq_nil_of_length_eq_zero (by omega)
  refine ⟨?_, ?_, hidx⟩
  · rw [htr, dones_append, hnil, hdone, hcount]
    simpa [hnil] using i1
  · rw [htr, afterFirstDone_append_of_no_done _ _ hnil, afterFirstDone_of_no_done _ hdone]
    exact quiet_nil

/-- A step that only adds abort bookkeeping keeps the invariant. -/
theorem inv_of_quiet (c : Nat) (s s' : State J) (delta : List Event)
    (hinv : Inv c s) (htr : s'.trace = s.trace ++ delta) (hq : Quiet delta)
    (hps : s'.pendingSignal = s.pendingSignal) (hhp : s'.helperPending = s.helperPending)
    (hidx : s'._currentDeleteIndex = s._currentDeleteIndex)
    (hlist : s'._syncedItemsToDelete = s._syncedItemsToDelete) : Inv c s' := by
  obtain ⟨i1, i2, i3⟩ := hinv
  refine ⟨?_, ?_, ?_⟩
  · rw [htr, dones_append, hq.2.2.2.2]
    simpa [pendingCount, hps, hhp] using i1
  · rw [htr]
    exact quiet_afterFirstDone_append _ _ i2 hq
  · rw [hps, hidx, hlist]
    exact i3

/-- The trace `abort` leaves: the old one and abort bookkeeping. -/
theorem abort_trace (s : State J) (abortType : AbortType) :
    ∃ delta, (abort s abortType).trace = s.trace ++ delta ∧ Quiet delta := by
  unfold abort
  cases s._job <;> cases abortType
  · exact ⟨[], by simp, quiet_nil⟩
  · exact ⟨[Event.abortFinished], by simp [emit],
      by simp [Quiet, requests, helpers, removals, commits, dones]⟩
  · exact ⟨[Event.replyAbort], by simp [emit],
      by simp [Quiet, requests, helpers, removals, commits, dones]⟩
  · exact ⟨[Event.replyAbort, Event.abortFinished], by simp [emit],
      by simp [Quiet, requests, helpers, removals, commits, dones]⟩

/-- Every input keeps the invariant. -/
theorem deliver_inv (env : Env J) (c : Nat) (hc : c ≤ 1) (s : State J) (i : Input)
    (hinv : Inv c s) : Inv c (deliver env s i) := by
  cases i with
  | abort t =>
    obtain ⟨delta, htr, hq⟩ := abort_trace s t
    obtain ⟨a1, a2, -, a4, a5, -⟩ := abort_frame s t
    exact inv_of_quiet c s _ delta hinv htr hq a1 a2 a5 a4
  | helperFinished b e m =>
    by_cases hh : s.helperPending = true
    · obtain ⟨d1, d2, d3⟩ := helper_step env s b e m hh
      have hnone : s.pendingSignal = none := by
        obtain ⟨i1, -, -⟩ := hinv
        cases hp : s.pendingSignal with
        | none => rfl
        | some x => simp [pendingCount, hp, hh] at i1; omega
      exact inv_of_complete c hc s _ _ hinv (by simp [pendingCount, hh]) d3
        (by simp [dones]) (by simp [afterFirstDone]) (d1.trans hnone) d2
    · have hs : deliver env s (Input.helperFinished b e m) = s := by simp [deliver, hh]
      rw [hs]
      exact hinv
  | finishedSignal r =>
    cases hp : s.pendingSignal with
    | none =>
      have hs : deliver env s (Input.finishedSignal r) = s := by simp [deliver, hp]
      rw [hs]
      exact hinv
    | some slot =>
      have hpos : 1 ≤ pendingCount s := by simp [pendingCount, hp]
      have hhelper : s.helperPending = false := by
        obtain ⟨i1, -, -⟩ := hinv
        cases hh : s.helperPending with
        | false => rfl
        | true => simp [pendingCount, hp, hh] at i1; omega
      cases slot with
      | slotDeleteJobFinished =>
        by_cases hok : r.transportOk
        · by_cases hst : r.httpStatus = 204 ∨ r.httpStatus = 404
          · obtain ⟨d1, d2, d3⟩ := direct_step_accepted env s r hp hok hst
            refine inv_of_complete c hc s _ _ hinv hpos d3 ?_ ?_ d1 (d2.trans hhelper)
            · cases (env.db.deleteFileRecord s._journal s._item._originalFile
                s._item.isDirectory).1 <;> simp [dones]
            · cases (env.db.deleteFileRecord s._journal s._item._originalFile
                s._item.isDirectory).1 <;> simp [afterFirstDone]
          · obtain ⟨d1, d2, d3⟩ := direct_step_wrong_status env s r hp hok (by tauto)
            exact inv_of_complete c hc s _ _ hinv hpos d3 (by simp [dones])
              (by simp [afterFirstDone]) d1 (d2.trans hhelper)
        · obtain ⟨d1, d2, d3⟩ := direct_step_failed env s r hp hok
          exact inv_of_complete c hc s _ _ hinv hpos d3 (by simp [dones])
            (by simp [afterFirstDone]) d1 (d2.trans hhelper)
      | slotPartialDeleteJobFinished =>
        have hlt := hinv.2.2 hp
        have hcur : s._syncedItemsToDelete[s._currentDeleteIndex]? =
            some (s._syncedItemsToDelete[s._currentDeleteIndex]) := List.getElem?_eq_getElem hlt
        by_cases hok : r.transportOk
        · by_cases hnext : s._currentDeleteIndex + 1 < s._syncedItemsToDelete.length
          · have hn : s._syncedItemsToDelete[s._currentDeleteIndex + 1]? =
                some (s._syncedItemsToDelete[s._currentDeleteIndex + 1]) :=
              List.getElem?_eq_getElem hnext
            rw [partial_step_next env s r hp hok _ _ hcur hn]
            exact inv_of_continue c hc s _ _ hinv hpos rfl (by simp [dones])
              (by simp [pendingCount, hp]) (fun _ => hnext)
          · rw [partial_step_last env s r hp hok _ hcur (by omega)]
            exact inv_of_complete c hc s _ _ hinv hpos rfl (by simp [dones])
              (by simp [afterFirstDone]) rfl hhelper
        · rw [partial_step_failed env s r hp hok]
          exact inv_of_complete c hc s _ _ hinv hpos rfl (by simp [dones])
            (by simp [afterFirstDone]) rfl hhelper

/-- Every sequence of inputs keeps the invariant. -/
theorem foldl_inv (env : Env J) (c : Nat) (hc : c ≤ 1) (inputs : List Input) :
    ∀ s : State J, Inv c s → Inv c (inputs.foldl (deliver env) s) := by
  induction inputs with
  | nil => intro s h; exact h
  | cons i inputs ih =>
    intro s h
    exact ih _ (deliver_inv env c hc s i h)

/-- The invariant after `start`: nothing to wait for and no `done` if the
abort flag was set, exactly one of the two otherwise. -/
theorem start_inv (env : Env J) (item : SyncFileItem) (abortRequested flag : Bool) (j : J)
    (n : Nat) :
    Inv (if abortRequested = true then 0 else 1)
      (start env (construct item abortRequested flag j n)) := by
  cases abortRequested
  · by_cases hsel : item.isDirectory = true ∧
        env.db.hasSelectiveSyncDescendants j item._file = true
    · cases hlist : env.db.getSyncedDescendants j item._file with
      | nil =>
        rw [start_empty env _ rfl hsel.1 hsel.2 hlist]
        simp [Inv, construct, pendingCount, dones, afterFirstDone, quiet_nil]
      | cons first rest =>
        rw [start_partial_mode env _ rfl hsel.1 hsel.2 first rest rfl hlist]
        simp [Inv, construct, pendingCount, dones, afterFirstDone, quiet_nil]
    · by_cases henc : item._encryptedFileName ≠ "" ∨ item.isEncrypted = true
      · rw [start_encrypted env _ rfl hsel henc]
        by_cases hd : item.isDirectory = true <;>
          simp [Inv, construct, pendingCount, dones, afterFirstDone, quiet_nil, hd]
      · have hname : item._encryptedFileName = "" := by
          by_contra h
          exact henc (Or.inl h)
        have he : item.isEncrypted = false := by
          cases h : item.isEncrypted with
          | false => rfl
          | true => exact absurd (Or.inr h) henc
        rw [start_direct env _ rfl hsel hname he]
        by_cases hd : item.isDirectory = true <;>
          simp [Inv, construct, createDeleteJob, emit, pendingCount, dones, afterFirstDone,
            quiet_nil, hd]
  · rw [start_aborted env _ rfl]
    simp [Inv, construct, pendingCount, dones, afterFirstDone, quiet_nil]

/-- Every input uses up at least as many of the steps left as it counts for
as a request completion, and a helper notification stops the helper; no input
starts one. -/
theorem deliver_progress (env : Env J) (c : Nat) (s : State J) (i : Input) (hinv : Inv c s) :
    stepsLeft (deliver env s i) ≤ stepsLeft s - finishedSignals [i] ∧
    ((deliver env s i).helperPending = true →
      s.helperPending = true ∧ helperNotifications [i] = 0) := by
  cases i with
  | abort t =>
    obtain ⟨a1, a2, -, a4, a5, -⟩ := abort_frame s t
    simp only [deliver, stepsLeft, a1, a2, a4, a5, finishedSignals, helperNotifications]
    simp
  | helperFinished b e m =>
    by_cases hh : s.helperPending = true
    · obtain ⟨d1, d2, -⟩ := helper_step env s b e m hh
      have hidx : (deliver env s (Input.helperFinished b e m))._currentDeleteIndex =
          s._currentDeleteIndex ∧
          (deliver env s (Input.helperFinished b e m))._syncedItemsToDelete =
          s._syncedItemsToDelete := by
        cases b <;> by_cases h : e ≠ NetworkError.NoError ∧ e ≠ NetworkError.ContentNotFoundError <;>
          simp [deliver, hh, helperFinished, done, emit, h]
      simp only [stepsLeft, d1, d2, hidx.1, hidx.2, finishedSignals]
      simp
    · have hs : deliver env s (Input.helperFinished b e m) = s := by simp [deliver, hh]
      rw [hs]
      simp [finishedSignals, hh]
  | finishedSignal r =>
    cases hp : s.pendingSignal with
    | none =>
      have hs : deliver env s (Input.finishedSignal r) = s := by simp [deliver, hp]
      rw [hs]
      simp [stepsLeft, hp, helperNotifications]
    | some slot =>
      cases slot with
      | slotDeleteJobFinished =>
        have hd : (deliver env s (Input.finishedSignal r)).pendingSignal = none ∧
            (deliver env s (Input.finishedSignal r)).helperPending = s.helperPending := by
          by_cases hok : r.transportOk
          · by_cases hst : r.httpStatus = 204 ∨ r.httpStatus = 404
            · exact ⟨(direct_step_accepted env s r hp hok hst).1,
                (direct_step_accepted env s r hp hok hst).2.1⟩
            · exact ⟨(direct_step_wrong_status env s r hp hok (by tauto)).1,
                (direct_step_wrong_status env s r hp hok (by tauto)).2.1⟩
          · exact ⟨(direct_step_failed env s r hp hok).1, (direct_step_failed env s r hp hok).2.1⟩
        simp [stepsLeft, hd.1, hd.2, helperNotifications]
      | slotPartialDeleteJobFinished =>
        have hlt := hinv.2.2 hp
        have hcur : s._syncedItemsToDelete[s._currentDeleteIndex]? =
            some (s._syncedItemsToDelete[s._currentDeleteIndex]) := List.getElem?_eq_getElem hlt
        by_cases hok : r.transportOk
        · by_cases hnext : s._currentDeleteIndex + 1 < s._syncedItemsToDelete.length
          · have hn : s._syncedItemsToDelete[s._currentDeleteIndex + 1]? =
                some (s._syncedItemsToDelete[s._currentDeleteIndex + 1]) :=
              List.getElem?_eq_getElem hnext
            rw [partial_step_next env s r hp hok _ _ hcur hn]
            simp [stepsLeft, hp, finishedSignals, helperNotifications]
            omega
          · rw [partial_step_last env s r hp hok _ hcur (by omega)]
            simp [stepsLeft, helperNotifications]
        · rw [partial_step_failed env s r hp hok]
          simp [stepsLeft, helperNotifications]

/-- Over a whole sequence of inputs: the steps left shrink by the number of
request completions, and the helper is still running only if it was and no
notification arrived. -/
theorem foldl_progress (env : Env J) (c : Nat) (hc : c ≤ 1) (inputs : List Input) :
    ∀ s : State J, Inv c s →
      stepsLeft (inputs.foldl (deliver env) s) ≤ stepsLeft s - finishedSignals inputs ∧
      ((inputs.foldl (deliver env) s).helperPending = true →
        s.helperPending = true ∧ helperNotifications inputs = 0) := by
  induction inputs with
  | nil => intro s _; simp [finishedSignals, helperNotifications]
  | cons i inputs ih =>
    intro s hinv
    obtain ⟨p1, p2⟩ := deliver_progress env c s i hinv
    obtain ⟨q1, q2⟩ := ih (deliver env s i) (deliver_inv env c hc s i hinv)
    simp only [List.foldl_cons]
    have hf : finishedSignals (i :: inputs) = finishedSignals [i] + finishedSignals inputs := by
      simp [finishedSignals, List.countP_cons, Nat.add_comm]
    have hn : helperNotifications (i :: inputs) =
        helperNotifications [i] + helperNotifications inputs := by
      simp [helperNotifications, List.countP_cons, Nat.add_comm]
    refine ⟨by rw [hf]; omega, ?_⟩
    intro h
    obtain ⟨r1, r2⟩ := q2 h
    obtain ⟨r3, r4⟩ := p2 r1
    exact ⟨r3, by rw [hn]; omega⟩

/-- After `start` the steps left are at most one per synced descendant, and
at least one is allowed for. -/
theorem start_stepsLeft (env : Env J) (item : SyncFileItem) (abortRequested flag : Bool) (j : J)
    (n : Nat) :
    stepsLeft (start env (construct item abortRequested flag j n)) ≤
      max 1 (env.db.getSyncedDescendants j item._file).length := by
  cases abortRequested
  · by_cases hsel : item.isDirectory = true ∧
        env.db.hasSelectiveSyncDescendants j item._file = true
    · cases hlist : env.db.getSyncedDescendants j item._file with
      | nil =>
        rw [start_empty env _ rfl hsel.1 hsel.2 hlist]
        simp [stepsLeft, construct]
      | cons first rest =>
        rw [start_partial_mode env _ rfl hsel.1 hsel.2 first rest rfl hlist]
        simp [stepsLeft, construct]
    · by_cases henc : item._encryptedFileName ≠ "" ∨ item.isEncrypted = true
      · rw [start_encrypted env _ rfl hsel henc]
        simp [stepsLeft, construct]
      · have hname : item._encryptedFileName = "" := by
          by_contra h
          exact henc (Or.inl h)
        have he : item.isEncrypted = false := by
          cases h : item.isEncrypted with
          | false => rfl
          | true => exact absurd (Or.inr h) henc
        rw [start_direct env _ rfl hsel hname he]
        simp [stepsLeft, construct, createDeleteJob, emit]
  · rw [start_aborted env _ rfl]
    simp [stepsLeft, construct]

/-- Nothing is in flight once no steps are left and the helper has stopped. -/
theorem pendingCount_of_stepsLeft (c : Nat) (s : State J) (hinv : Inv c s)
    (hsteps : stepsLeft s = 0) (hh : s.helperPending = false) : pendingCount s = 0 := by
  cases hp : s.pendingSignal with
  | none => simp [pendingCount, hp, hh]
  | some slot =>
    cases slot with
    | slotDeleteJobFinished => simp [stepsLeft, hp] at hsteps
    | slotPartialDeleteJobFinished =>
      have hlt := hinv.2.2 hp
      simp [stepsLeft, hp] at hsteps
      omega

/-- C6: exactly-once completion. For a job started while no global abort is
requested, after any inputs the calls of `done` and the completions still
outstanding (a delete request in flight, a running helper) add up to exactly
one; and once the inputs hold a completion for every request the job can
issue (one per synced descendant, one at least) and a notification of the
helper, nothing is outstanding and `done` has been called exactly once. In
every run, abort flag set or not and whatever the order of aborts and
completions, `done` is called at most once, and after it the job issues no
delete request, starts no helper and makes no journal mutation. -/
theorem done_exactly_once (env : Env J) (item : SyncFileItem) (abortRequested flag : Bool)
    (j : J) (n : Nat) (inputs : List Input) :
    (dones (run env (construct item false flag j n) inputs).trace).length +
        pendingCount (run env (construct item false flag j n) inputs) = 1 ∧
    (max 1 (env.db.getSyncedDescendants j item._file).length ≤ finishedSignals inputs →
      1 ≤ helperNotifications inputs →
      pendingCount (run env (construct item false flag j n) inputs) = 0 ∧
      (dones (run env (construct item false flag j n) inputs).trace).length = 1) ∧
    (dones (run env (construct item abortRequested flag j n) inputs).trace).length ≤ 1 ∧
    Quiet (afterFirstDone (run env (construct item abortRequested flag j n) inputs).trace) := by
  have h1 := foldl_inv env 1 (Nat.le_refl 1) inputs _ (start_inv env item false flag j n)
  have h2 := foldl_inv env (if abortRequested = true then 0 else 1)
    (by split <;> simp) inputs _ (start_inv env item abortRequested flag j n)
  refine ⟨h1.1, ?_, ?_, h2.2.1⟩
  · intro hf hn
    obtain ⟨p1, p2⟩ := foldl_progress env 1 (Nat.le_refl 1) inputs _
      (start_inv env item false flag j n)
    have hs := start_stepsLeft env item false flag j n
    have hzero : stepsLeft (run env (construct item false flag j n) inputs) = 0 := by
      unfold run
      omega
    have hh : (run env (construct item false flag j n) inputs).helperPending = false := by
      cases h : (run env (construct item false flag j n) inputs).helperPending with
      | false => rfl
      | true =>
        have := (p2 h).2
        omega
    have hzero' := pendingCount_of_stepsLeft 1 _ h1 hzero hh
    have h3 := h1.1
    unfold run at hzero' h3 ⊢
    exact ⟨hzero', by omega⟩
  · have h3 := h2.1
    unfold run
    split at h3 <;> omega

/-- C6 at a concrete input: a direct delete aborted while its request is in
flight; the completion arrives after the abort, a stray second completion and
a helper notification change nothing. -/
theorem done_exactly_once_witness :
    pendingCount (run (sampleEnv [] [] []) (construct (sampleItem "f" false) false false ["f"] 0)
      [Input.abort AbortType.Asynchronous,
       Input.finishedSignal (sampleReply NetworkError.OperationCanceledError 0),
       Input.finishedSignal (sampleReply NetworkError.NoError 204),
       Input.helperFinished true NetworkError.NoError ""]) = 0 ∧
    (dones (run (sampleEnv [] [] []) (construct (sampleItem "f" false) false false ["f"] 0)
      [Input.abort AbortType.Asynchronous,
       Input.finishedSignal (sampleReply NetworkError.OperationCanceledError 0),
       Input.finishedSignal (sampleReply NetworkError.NoError 204),
       Input.helperFinished true NetworkError.NoError ""]).trace).length = 1 :=
  (done_exactly_once (sampleEnv [] [] []) (sampleItem "f" false) false false ["f"] 0
    [Input.abort AbortType.Asynchronous,
     Input.finishedSignal (sampleReply NetworkError.OperationCanceledError 0),
     Input.finishedSignal (sampleReply NetworkError.NoError 204),
     Input.helperFinished true NetworkError.NoError ""]).2.1 (by decide) (by decide)

/-! ## The shape of one step -/

/-- The seven things an input can do to a job whose partial-step cursor, if a
partial-step request is in flight, is inside the list: nothing; `abort`; the
completion of the direct request; a partial step that issues the next
request, reaches the end of the list, or fails; the helper's notification. -/
theorem deliver_cases (env : Env J) (s : State J) (i : Input)
    (hidx : s.pendingSignal = some Slot.slotPartialDeleteJobFinished →
      s._currentDeleteIndex < s._syncedItemsToDelete.length) :
    deliver env s i = s ∨
    (∃ t, deliver env s i = abort s t) ∨
    (∃ r flag journal delta, s.pendingSignal = some Slot.slotDeleteJobFinished ∧
      i = Input.finishedSignal r ∧ DirectDelta delta ∧
      deliver env s i =
        { s with
          _item := withReply s._item r
          _anotherSyncNeeded := flag
          _journal := journal
          _activeJobList := s._activeJobList - 1
          pendingSignal := none
          trace := s.trace ++ delta }) ∨
    (∃ r cur next, s.pendingSignal = some Slot.slotPartialDeleteJobFinished ∧
      i = Input.finishedSignal r ∧ r.transportOk ∧
      s._syncedItemsToDelete[s._currentDeleteIndex]? = some cur ∧
      s._syncedItemsToDelete[s._currentDeleteIndex + 1]? = some next ∧
      deliver env s i =
        { s with
          _job := some (partialJobFor env s._item next)
          _currentDeleteIndex := s._currentDeleteIndex + 1
          _journal := (env.db.deleteFileRecord s._journal cur false).2
          _activeJobList := s._activeJobList - 1 + 1
          pendingSignal := some Slot.slotPartialDeleteJobFinished
          trace := s.trace ++
            [Event.deleteFileRecord cur false (env.db.deleteFileRecord s._journal cur false).1,
             Event.deleteJobStart (partialJobFor env s._item next)] }) ∨
    (∃ r cur, s.pendingSignal = some Slot.slotPartialDeleteJobFinished ∧
      i = Input.finishedSignal r ∧ r.transportOk ∧
      s._syncedItemsToDelete[s._currentDeleteIndex]? = some cur ∧
      s._currentDeleteIndex + 1 = s._syncedItemsToDelete.length ∧
      deliver env s i =
        { s with
          _currentDeleteIndex := s._currentDeleteIndex + 1
          _isPartialDeleteMode := false
          _journal := (env.db.deleteFileRecord s._journal cur false).2
          _activeJobList := s._activeJobList - 1
          pendingSignal := none
          trace := s.trace ++
            [Event.deleteFileRecord cur false (env.db.deleteFileRecord s._journal cur false).1,
             Event.done Status.Success "" ErrorCategory.NoError] }) ∨
    (∃ r, s.pendingSignal = some Slot.slotPartialDeleteJobFinished ∧
      i = Input.finishedSignal r ∧ ¬ r.transportOk ∧
      deliver env s i =
        { s with
          _activeJobList := s._activeJobList - 1
          pendingSignal := none
          trace := s.trace ++
            [Event.done Status.SoftError r.errorString ErrorCategory.GenericError] }) ∨
    (∃ success networkError errorString flag, s.helperPending = true ∧
      i = Input.helperFinished success networkError errorString ∧
      deliver env s i =
        { s with
          _anotherSyncNeeded := flag
          helperPending := false
          trace := s.trace ++
            [Event.done (helperOutcome env s._item success networkError errorString).1
              (helperOutcome env s._item success networkError errorString).2.1
              (helperOutcome env s._item success networkError errorString).2.2] }) := by
  cases i with
  | abort t => exact Or.inr (Or.inl ⟨t, rfl⟩)
  | helperFinished b e m =>
    by_cases hh : s.helperPending = true
    · refine Or.inr (Or.inr (Or.inr (Or.inr (Or.inr (Or.inr ?_)))))
      cases b
      · by_cases h : e = NetworkError.NoError ∨ e = NetworkError.ContentNotFoundError
        · have h' : ¬ (e ≠ NetworkError.NoError ∧ e ≠ NetworkError.ContentNotFoundError) := by
            tauto
          exact ⟨false, e, m, s._anotherSyncNeeded, hh, rfl,
            by simp [deliver, hh, helperFinished, helperOutcome, h, h', done, emit]⟩
        · have h' : e ≠ NetworkError.NoError ∧ e ≠ NetworkError.ContentNotFoundError := by
            tauto
          exact ⟨false, e, m, s._anotherSyncNeeded ||
              (env.classifyError e s._item._httpErrorCode).2, hh, rfl,
            by simp [deliver, hh, helperFinished, helperOutcome, h, h', done, emit]⟩
      · exact ⟨true, e, m, s._anotherSyncNeeded, hh, rfl,
          by simp [deliver, hh, helperFinished, helperOutcome, done, emit]⟩
    · exact Or.inl (by simp [deliver, hh])
  | finishedSignal r =>
    cases hp : s.pendingSignal with
    | none => exact Or.inl (by simp [deliver, hp])
    | some slot =>
      cases slot with
      | slotDeleteJobFinished =>
        refine Or.inr (Or.inr (Or.inl ?_))
        by_cases hbad : r.error ≠ NetworkError.NoError ∧
            r.error ≠ NetworkError.ContentNotFoundError
        · exact ⟨r, s._anotherSyncNeeded || (env.classifyError r.error r.httpStatus).2,
            s._journal,
            [Event.done (env.classifyError r.error r.httpStatus).1 r.errorString
              (env.errorCategoryFromNetworkError r.error)],
            rfl, rfl, ⟨"", false, false, _, _, _, Or.inl rfl⟩,
            by simp [deliver, hp, slotDeleteJobFinished, hbad, done, emit, withReply]⟩
        · by_cases hst : r.httpStatus ≠ 204 ∧ r.httpStatus ≠ 404
          · exact ⟨r, s._anotherSyncNeeded, s._journal,
              [Event.done Status.NormalError (wrongStatusMessage r.httpStatus r.reasonPhrase)
                ErrorCategory.GenericError],
              rfl, rfl, ⟨"", false, false, _, _, _, Or.inl rfl⟩,
              by simp [deliver, hp, slotDeleteJobFinished, hbad, hst, done, emit, withReply,
                wrongStatusMessage]⟩
          · cases hres : (env.db.deleteFileRecord s._journal s._item._originalFile
                s._item.isDirectory).1
            · exact ⟨r, s._anotherSyncNeeded,
                (env.db.deleteFileRecord s._journal s._item._originalFile
                  s._item.isDirectory).2,
                [Event.deleteFileRecord s._item._originalFile s._item.isDirectory false,
                 Event.done Status.NormalError (recordMessage s._item._originalFile)
                  ErrorCategory.GenericError],
                rfl, rfl, ⟨_, _, _, _, _, _, Or.inr (Or.inl rfl)⟩,
                by simp [deliver, hp, slotDeleteJobFinished, hbad, hst, done, emit, withReply,
                  hres, recordMessage]⟩
            · exact ⟨r, s._anotherSyncNeeded,
                env.db.commit (env.db.deleteFileRecord s._journal s._item._originalFile
                  s._item.isDirectory).2 "Remote Remove",
                [Event.deleteFileRecord s._item._originalFile s._item.isDirectory true,
                 Event.commit "Remote Remove",
                 Event.done Status.Success "" ErrorCategory.NoError],
                rfl, rfl, ⟨_, _, _, _, _, _, Or.inr (Or.inr rfl)⟩,
                by simp [deliver, hp, slotDeleteJobFinished, hbad, hst, done, emit, withReply,
                  hres]⟩
      | slotPartialDeleteJobFinished =>
        have hlt := hidx hp
        have hcur : s._syncedItemsToDelete[s._currentDeleteIndex]? =
            some (s._syncedItemsToDelete[s._currentDeleteIndex]) := List.getElem?_eq_getElem hlt
        by_cases hok : r.transportOk
        · by_cases hnext : s._currentDeleteIndex + 1 < s._syncedItemsToDelete.length
          · have hn : s._syncedItemsToDelete[s._currentDeleteIndex + 1]? =
                some (s._syncedItemsToDelete[s._currentDeleteIndex + 1]) :=
              List.getElem?_eq_getElem hnext
            exact Or.inr (Or.inr (Or.inr (Or.inl ⟨r, _, _, rfl, rfl, hok, hcur, hn,
              partial_step_next env s r hp hok _ _ hcur hn⟩)))
          · exact Or.inr (Or.inr (Or.inr (Or.inr (Or.inl ⟨r, _, rfl, rfl, hok, hcur, by omega,
              partial_step_last env s r hp hok _ hcur (by omega)⟩))))
        · exact Or.inr (Or.inr (Or.inr (Or.inr (Or.inr (Or.inl ⟨r, rfl, rfl, hok,
            partial_step_failed env s r hp hok⟩)))))

/-- The state `abort` leaves: the old one with the effects of the abort
added to the trace. -/
theorem abort_eq (s : State J) (abortType : AbortType) :
    abort s abortType = { s with trace := s.trace ++ abortEffects s._job.isSome abortType } := by
  obtain ⟨_, job, _, _, _, _, _, _, _, _, _, _, _⟩ := s
  cases job <;> cases abortType <;> simp [abort, emit, abortEffects]

/-- The effects `abort` records hold no request and no out-of-range access. -/
theorem abort_delta (b : Bool) (abortType : AbortType) :
    requests (abortEffects b abortType) = [] ∧
    Event.indexOutOfRange ∉ abortEffects b abortType := by
  cases b <;> cases abortType <;> simp [requests, abortEffects]

theorem requests_append (t u : List Event) : requests (t ++ u) = requests t ++ requests u := by
  simp [requests]

/-- Every input keeps a reachable state reachable, moves the cursor by zero
or one and leaves the list alone. -/
theorem deliver_reach (env : Env J) (item : SyncFileItem) (s : State J) (i : Input)
    (h : Reach env item s) :
    Reach env item (deliver env s i) ∧
    ((deliver env s i)._currentDeleteIndex = s._currentDeleteIndex ∨
      (deliver env s i)._currentDeleteIndex = s._currentDeleteIndex + 1) ∧
    (deliver env s i)._syncedItemsToDelete = s._syncedItemsToDelete := by
  obtain ⟨r1, r2, r3, r4, r5, r6, r7⟩ := h
  rcases deliver_cases env s i r2 with hs | ⟨t, hs⟩ | ⟨r, fl, jr, delta, hp, -, hd, hs⟩ |
    ⟨r, cur, next, hp, -, -, hcur, hnext, hs⟩ | ⟨r, cur, hp, -, -, hcur, hlast, hs⟩ |
    ⟨r, hp, -, -, hs⟩ | ⟨b, e, m, fl, hh, -, hs⟩
  · rw [hs]
    exact ⟨⟨r1, r2, r3, r4, r5, r6, r7⟩, Or.inl rfl, rfl⟩
  · rw [hs, abort_eq]
    obtain ⟨d1, d2⟩ := abort_delta s._job.isSome t
    generalize abortEffects s._job.isSome t = ad at d1 d2 ⊢
    refine ⟨⟨r1, r2, ?_, ?_, ?_, r6, r7⟩, Or.inl rfl, rfl⟩
    · simp only [List.mem_append, not_or]
      exact ⟨r3, d2⟩
    · intro q hq
      apply r4 q
      simpa [requests_append, d1] using hq
    · intro hsome
      obtain ⟨a1, a2, a3, a4⟩ := r5 hsome
      refine ⟨a1, ?_, a3, a4⟩
      simp only [requests_append, d1, List.append_nil]
      exact a2
  · rw [hs]
    have hhelper : s.helperPending = false := (r5 (by simp [hp])).2.2.1
    obtain ⟨p, d, res, st, msg, cat, hd | hd | hd⟩ := hd <;> subst hd
    all_goals
      refine ⟨⟨r1, by simp, by simpa using r3, ?_, by simp, by simp [hhelper], by simp⟩,
        Or.inl rfl, rfl⟩
      intro q hq
      apply r4 q
      simpa [requests] using hq
  · rw [hs]
    obtain ⟨-, -, -, hitem⟩ := r5 (by simp [hp])
    have hhelper : s.helperPending = false := (r5 (by simp [hp])).2.2.1
    have hlt : s._currentDeleteIndex + 1 < s._syncedItemsToDelete.length :=
      (List.getElem?_eq_some.mp hnext).1
    have hmem : next ∈ s._syncedItemsToDelete := by
      obtain ⟨h1, h2⟩ := List.getElem?_eq_some.mp hnext
      rw [← h2]
      exact List.getElem_mem h1
    refine ⟨⟨Nat.le_of_lt hlt, fun _ => hlt, by simpa using r3, ?_, ?_, by simp [hhelper],
      fun _ => ⟨next, hnext, by rw [hitem]⟩⟩, Or.inr rfl, rfl⟩
    · intro q hq
      simp only [requests_append] at hq
      rcases List.mem_append.mp hq with hq | hq
      · exact r4 q hq
      · simp [requests] at hq
        exact Or.inr ⟨next, hmem, by rw [hq, hitem]⟩
    · intro _
      refine ⟨rfl, ?_, hhelper, hitem⟩
      simp [requests, List.filterMap_append]
  · rw [hs]
    have hhelper : s.helperPending = false := (r5 (by simp [hp])).2.2.1
    refine ⟨⟨by simp only; omega, by simp, by simpa using r3, ?_, by simp, by simp [hhelper],
      by simp⟩, Or.inr rfl, rfl⟩
    intro q hq
    apply r4 q
    simpa [requests] using hq
  · rw [hs]
    have hhelper : s.helperPending = false := (r5 (by simp [hp])).2.2.1
    refine ⟨⟨r1, by simp, by simpa using r3, ?_, by simp, by simp [hhelper], by simp⟩,
        Or.inl rfl, rfl⟩
    intro q hq
    apply r4 q
    simpa [requests] using hq
  · rw [hs]
    have hnone : s.pendingSignal = none := by
      cases hp : s.pendingSignal with
      | none => rfl
      | some x =>
        have := (r5 (by simp [hp])).2.2.1
        rw [hh] at this
        exact absurd this (by simp)
    refine ⟨⟨r1, by simp [hnone], by simpa using r3, ?_, by simp [hnone], by simp,
      by simp [hnone]⟩, Or.inl rfl, rfl⟩
    intro q hq
    apply r4 q
    simpa [requests] using hq

/-- Every sequence of inputs keeps a reachable state reachable. -/
theorem foldl_reach (env : Env J) (item : SyncFileItem) (inputs : List Input) :
    ∀ s : State J, Reach env item s → Reach env item (inputs.foldl (deliver env) s) := by
  induction inputs with
  | nil => intro s h; exact h
  | cons i inputs ih =>
    intro s h
    exact ih _ (deliver_reach env item s i h).1

/-- The state `start` leaves is reachable, whatever the abort flag. -/
theorem start_reach (env : Env J) (item : SyncFileItem) (abortRequested flag : Bool) (j : J)
    (n : Nat) : Reach env item (start env (construct item abortRequested flag j n)) := by
  cases abortRequested
  · by_cases hsel : item.isDirectory = true ∧
        env.db.hasSelectiveSyncDescendants j item._file = true
    · cases hlist : env.db.getSyncedDescendants j item._file with
      | nil =>
        rw [start_empty env _ rfl hsel.1 hsel.2 hlist]
        simp [Reach, construct, requests]
      | cons first rest =>
        rw [start_partial_mode env _ rfl hsel.1 hsel.2 first rest rfl hlist]
        simp [Reach, construct, requests]
    · by_cases henc : item._encryptedFileName ≠ "" ∨ item.isEncrypted = true
      · rw [start_encrypted env _ rfl hsel henc]
        by_cases hd : item.isDirectory = true <;> simp [Reach, construct, requests, hd]
      · have hname : item._encryptedFileName = "" := by
          by_contra h
          exact henc (Or.inl h)
        have he : item.isEncrypted = false := by
          cases h : item.isEncrypted with
          | false => rfl
          | true => exact absurd (Or.inr h) henc
        rw [start_direct env _ rfl hsel hname he]
        by_cases hd : item.isDirectory = true <;>
          simp [Reach, construct, createDeleteJob, emit, requests, directJobFor, hd]
  · rw [start_aborted env _ rfl]
    simp [Reach, construct, requests]

/-- Every state of every run is reachable. -/
theorem run_reach (env : Env J) (item : SyncFileItem) (abortRequested flag : Bool) (j : J)
    (n : Nat) (inputs : List Input) :
    Reach env item (run env (construct item abortRequested flag j n) inputs) :=
  foldl_reach env item inputs _ (start_reach env item abortRequested flag j n)

/-! ## C13: `start` under a global abort -/

/-- C13: if the scheduler's abort flag is set when `start` is called, then
for every item and every state of the job `start` returns the state it was
given: the trace is the same (no `done`, no delete request, no helper, no
journal query or mutation), and so are the journal, the cursor, the
descendant list and the partial-mode flag. -/
theorem start_under_abort (env : Env J) (s : State J) (habort : s._abortRequested = true) :
    start env s = s ∧
    (start env s).trace = s.trace ∧
    (start env s)._journal = s._journal ∧
    (start env s)._currentDeleteIndex = s._currentDeleteIndex ∧
    (start env s)._syncedItemsToDelete = s._syncedItemsToDelete ∧
    (start env s)._isPartialDeleteMode = s._isPartialDeleteMode := by
  have h : start env s = s := by simp [start, habort]
  rw [h]
  exact ⟨rfl, rfl, rfl, rfl, rfl, rfl⟩

/-- C13 at a concrete input: a new job for a directory with selective-sync
descendants and one synced descendant, the abort flag set. -/
theorem start_under_abort_witness :
    start (sampleEnv ["d"] ["d/a"] []) (construct (sampleItem "d" true) true false ["d/a"] 0) =
      construct (sampleItem "d" true) true false ["d/a"] 0 ∧
    (start (sampleEnv ["d"] ["d/a"] [])
      (construct (sampleItem "d" true) true false ["d/a"] 0)).trace = [] ∧
    (start (sampleEnv ["d"] ["d/a"] [])
      (construct (sampleItem "d" true) true false ["d/a"] 0))._journal = ["d/a"] ∧
    (start (sampleEnv ["d"] ["d/a"] [])
      (construct (sampleItem "d" true) true false ["d/a"] 0))._currentDeleteIndex = 0 ∧
    (start (sampleEnv ["d"] ["d/a"] [])
      (construct (sampleItem "d" true) true false ["d/a"] 0))._syncedItemsToDelete = [] ∧
    (start (sampleEnv ["d"] ["d/a"] [])
      (construct (sampleItem "d" true) true false ["d/a"] 0))._isPartialDeleteMode = false :=
  start_under_abort (sampleEnv ["d"] ["d/a"] [])
    (construct (sampleItem "d" true) true false ["d/a"] 0) rfl

/-! ## C14: the cursor -/

/-- C14: in every state a job reaches (any item, abort flag and inputs) the
cursor is at most the length of the list (and, counting up from 0, never
negative); `start` leaves it at 0 and every input leaves it unchanged or
increases it by exactly 1; whenever a partial-step request is in flight the
cursor is inside the list and the request is the one for the entry under it,
so the read of line 174 that issued it and the read of line 216 that will
handle its response are in bounds; and no run ever records a read outside the
list. -/
theorem cursor_invariant (env : Env J) (item : SyncFileItem) (abortRequested flag : Bool)
    (j : J) (n : Nat) (inputs : List Input) (i : Input) :
    (run env (construct item abortRequested flag j n) inputs)._currentDeleteIndex ≤
      (run env (construct item abortRequested flag j n) inputs)._syncedItemsToDelete.length ∧
    (start env (construct item abortRequested flag j n))._currentDeleteIndex = 0 ∧
    ((deliver env (run env (construct item abortRequested flag j n) inputs) i)._currentDeleteIndex
        = (run env (construct item abortRequested flag j n) inputs)._currentDeleteIndex ∨
      (deliver env (run env (construct item abortRequested flag j n) inputs) i)._currentDeleteIndex
        = (run env (construct item abortRequested flag j n) inputs)._currentDeleteIndex + 1) ∧
    ((run env (construct item abortRequested flag j n) inputs).pendingSignal ≠
        some Slot.slotPartialDeleteJobFinished ∨
      ∃ cur,
        (run env (construct item abortRequested flag j n) inputs)._syncedItemsToDelete[
          (run env (construct item abortRequested flag j n) inputs)._currentDeleteIndex]? =
            some cur ∧
        (run env (construct item abortRequested flag j n) inputs)._job =
          some (partialJobFor env item cur)) ∧
    Event.indexOutOfRange ∉ (run env (construct item abortRequested flag j n) inputs).trace := by
  have hr := run_reach env item abortRequested flag j n inputs
  have hs := start_reach env item abortRequested flag j n
  obtain ⟨-, hstep, -⟩ := deliver_reach env item _ i hr
  obtain ⟨r1, -, r3, -, -, -, r7⟩ := hr
  refine ⟨r1, ?_, hstep, ?_, r3⟩
  · cases abortRequested
    · by_cases hsel : item.isDirectory = true ∧
          env.db.hasSelectiveSyncDescendants j item._file = true
      · cases hlist : env.db.getSyncedDescendants j item._file with
        | nil => rw [start_empty env _ rfl hsel.1 hsel.2 hlist]; rfl
        | cons first rest =>
          rw [start_partial_mode env _ rfl hsel.1 hsel.2 first rest rfl hlist]; rfl
      · by_cases henc : item._encryptedFileName ≠ "" ∨ item.isEncrypted = true
        · rw [start_encrypted env _ rfl hsel henc]; rfl
        · have hname : item._encryptedFileName = "" := by
            by_contra h
            exact henc (Or.inl h)
          have he : item.isEncrypted = false := by
            cases h : item.isEncrypted with
            | false => rfl
            | true => exact absurd (Or.inr h) henc
          rw [start_direct env _ rfl hsel hname he]
          simp [createDeleteJob, emit, construct]
    · rw [start_aborted env _ rfl]; rfl
  · by_cases hp : (run env (construct item abortRequested flag j n) inputs).pendingSignal =
        some Slot.slotPartialDeleteJobFinished
    · exact Or.inr (r7 hp)
    · exact Or.inl hp

/-! ## C16, C18: what every request carries -/

/-- C16, as stated, fails on the path in the header: it is always the item's
own `_file`. For a locked virtual file in suffix mode the request targets
`doc.txt` while the header names `doc.txt.nextcloud`; for a locked directory
in partial mode the request targets the descendant `d/a` while the header
names the directory `d`. -/
theorem request_lock_header_counterexample :
    requests (start { sampleEnv [] [] [] with vfsMode := VfsMode.WithSuffix }
      (construct
        { sampleItem "doc.txt.nextcloud" false with
          _type := ItemType.ItemTypeVirtualFile
          _locked := LockStatus.LockedItem
          _lockToken := "tok" } false false [] 0)).trace =
      [{ path := "/remote.php/dav/files/alice/doc.txt"
         headers := [("If",
          "<https://cloud.example/remote.php/dav/doc.txt.nextcloud> (<opaquelocktoken:tok>)")]
         skipTrashbin := false
         finishedSlot := Slot.slotDeleteJobFinished }] ∧
    requests (start (sampleEnv ["d"] ["d/a"] [])
      (construct
        { sampleItem "d" true with _locked := LockStatus.LockedItem, _lockToken := "tok" }
        false false ["d/a"] 0)).trace =
      [{ path := "/remote.php/dav/files/alice/d/a"
         headers := [("If", "<https://cloud.example/remote.php/dav/d> (<opaquelocktoken:tok>)")]
         skipTrashbin := false
         finishedSlot := Slot.slotPartialDeleteJobFinished }] := by
  decide

/-- C16 (amended): every delete request the job issues, direct or
partial-step, in any run, carries the "If" header if and only if the item is
marked locked; when present it is the one header, with the value
"<" + davUrl + path + "> (<opaquelocktoken:" + lockToken + ">)" whose path is
the item's own `_file`; when the item is not locked the request carries no
headers. -/
theorem request_lock_header (env : Env J) (item : SyncFileItem) (abortRequested flag : Bool)
    (j : J) (n : Nat) (inputs : List Input) (q : DeleteJob)
    (hq : q ∈ requests (run env (construct item abortRequested flag j n) inputs).trace) :
    q.headers =
      (if item._locked = LockStatus.LockedItem then
        [("If",
          "<" ++ env.davUrl ++ item._file ++ "> (<opaquelocktoken:" ++ item._lockToken ++ ">)")]
       else []) := by
  obtain ⟨-, -, -, r4, -, -, -⟩ := run_reach env item abortRequested flag j n inputs
  rcases r4 q hq with h | ⟨p, -, h⟩ <;> rw [h] <;> rfl

/-- C16 (amended) at a concrete input: the locked file `f`, its direct
request issued. -/
theorem request_lock_header_witness :
    (directJobFor (sampleEnv [] [] [])
      { sampleItem "f" false with
        _locked := LockStatus.LockedItem, _lockToken := "tok" }).headers =
      [("If", "<https://cloud.example/remote.php/dav/f> (<opaquelocktoken:tok>)")] :=
  request_lock_header (sampleEnv [] [] [])
    { sampleItem "f" false with _locked := LockStatus.LockedItem, _lockToken := "tok" }
    false false ["f"] 0 [] _ (by decide)

/-- C18: every delete request the job issues, the direct one and the one of
every entry in partial mode, in any run, has its skip-trash flag set if and
only if the item's deletion mode is `WantsPermanentDeletion`; for any other
mode no request is permanent. -/
theorem request_skip_trashbin (env : Env J) (item : SyncFileItem) (abortRequested flag : Bool)
    (j : J) (n : Nat) (inputs : List Input) (q : DeleteJob)
    (hq : q ∈ requests (run env (construct item abortRequested flag j n) inputs).trace) :
    (q.skipTrashbin = true ↔
      item._wantsSpecificActions = SynchronizationOptions.WantsPermanentDeletion) := by
  obtain ⟨-, -, -, r4, -, -, -⟩ := run_reach env item abortRequested flag j n inputs
  rcases r4 q hq with h | ⟨p, -, h⟩ <;> rw [h] <;> simp [directJobFor, partialJobFor]

/-- C18 at a concrete input: a directory to be deleted permanently, in
partial mode, its second step's request. -/
theorem request_skip_trashbin_witness :
    ((partialJobFor (sampleEnv ["d"] ["d/a", "d/b"] [])
        { sampleItem "d" true with
          _wantsSpecificActions := SynchronizationOptions.WantsPermanentDeletion }
        "d/b").skipTrashbin = true ↔
      ({ sampleItem "d" true with
          _wantsSpecificActions := SynchronizationOptions.WantsPermanentDeletion } :
        SyncFileItem)._wantsSpecificActions = SynchronizationOptions.WantsPermanentDeletion) :=
  request_skip_trashbin (sampleEnv ["d"] ["d/a", "d/b"] [])
    { sampleItem "d" true with
      _wantsSpecificActions := SynchronizationOptions.WantsPermanentDeletion }
    false false [] 0 [Input.finishedSignal (sampleReply NetworkError.NoError 204)] _
    (by decide)

/-! ## C12: what `abort` cancels -/

/-- C12, as stated, fails for the encrypted helper: `abort` only looks at
`_job`. With the helper of an encrypted file running, a synchronous `abort`
leaves the trace as it was, an asynchronous one only adds `abortFinished`,
the helper keeps running, and its later notification is still answered with
`done`. -/
theorem abort_cancels_request_counterexample :
    (start (sampleEnv [] [] [])
      (construct { sampleItem "secret.txt" false with _encryptedFileName := "4f2a" } false false
        [] 0)).helperPending = true ∧
    (abort (start (sampleEnv [] [] [])
      (construct { sampleItem "secret.txt" false with _encryptedFileName := "4f2a" } false false
        [] 0)) AbortType.Synchronous).trace =
      [Event.helperStart EncryptedHelper.PropagateRemoteDeleteEncrypted] ∧
    (abort (start (sampleEnv [] [] [])
      (construct { sampleItem "secret.txt" false with _encryptedFileName := "4f2a" } false false
        [] 0)) AbortType.Asynchronous).trace =
      [Event.helperStart EncryptedHelper.PropagateRemoteDeleteEncrypted, Event.abortFinished] ∧
    (abort (start (sampleEnv [] [] [])
      (construct { sampleItem "secret.txt" false with _encryptedFileName := "4f2a" } false false
        [] 0)) AbortType.Synchronous).helperPending = true ∧
    dones (run (sampleEnv [] [] [])
      (construct { sampleItem "secret.txt" false with _encryptedFileName := "4f2a" } false false
        [] 0)
      [Input.abort AbortType.Synchronous,
       Input.helperFinished true NetworkError.NoError ""]).trace =
      [(Status.Success, "", ErrorCategory.NoError)] := by
  decide

/-- C12 (amended): in every state a job reaches, if a delete request is in
flight, direct or partial-step, then `_job` is that request, the last one
issued, and `abort` calls `reply()->abort()` on it (followed by
`abortFinished` if asynchronous); if the encrypted helper is running, `abort`
cancels nothing: it adds at most `abortFinished` and the helper keeps
running. -/
theorem abort_cancels_request (env : Env J) (item : SyncFileItem) (abortRequested flag : Bool)
    (j : J) (n : Nat) (inputs : List Input) (abortType : AbortType) :
    ((run env (construct item abortRequested flag j n) inputs).pendingSignal.isSome = true →
      (run env (construct item abortRequested flag j n) inputs)._job.isSome = true ∧
      (run env (construct item abortRequested flag j n) inputs)._job =
        (requests (run env (construct item abortRequested flag j n) inputs).trace).getLast? ∧
      (abort (run env (construct item abortRequested flag j n) inputs) abortType).trace =
        (run env (construct item abortRequested flag j n) inputs).trace ++
          Event.replyAbort ::
            (if abortType = AbortType.Asynchronous then [Event.abortFinished] else [])) ∧
    ((run env (construct item abortRequested flag j n) inputs).helperPending = true →
      (abort (run env (construct item abortRequested flag j n) inputs) abortType).trace =
        (run env (construct item abortRequested flag j n) inputs).trace ++
          (if abortType = AbortType.Asynchronous then [Event.abortFinished] else []) ∧
      (abort (run env (construct item abortRequested flag j n) inputs) abortType).helperPending =
        true) := by
  obtain ⟨-, -, -, -, r5, r6, -⟩ := run_reach env item abortRequested flag j n inputs
  generalize run env (construct item abortRequested flag j n) inputs = s at r5 r6 ⊢
  refine ⟨fun hp => ?_, fun hh => ?_⟩
  · obtain ⟨a1, a2, -, -⟩ := r5 hp
    refine ⟨a1, a2, ?_⟩
    rw [abort_eq, a1]
    simp [abortEffects]
  · obtain ⟨a1, -⟩ := r6 hh
    rw [abort_eq, a1]
    simp [abortEffects, hh]

/-- C12 (amended) at a concrete input: a partial delete aborted while the
request of its second entry is in flight. -/
theorem abort_cancels_request_witness :
    (run (sampleEnv ["d"] ["d/a", "d/b"] []) (construct (sampleItem "d" true) false false [] 0)
      [Input.finishedSignal (sampleReply NetworkError.NoError 204)])._job.isSome = true ∧
    (run (sampleEnv ["d"] ["d/a", "d/b"] []) (construct (sampleItem "d" true) false false [] 0)
      [Input.finishedSignal (sampleReply NetworkError.NoError 204)])._job =
      (requests (run (sampleEnv ["d"] ["d/a", "d/b"] [])
        (construct (sampleItem "d" true) false false [] 0)
        [Input.finishedSignal (sampleReply NetworkError.NoError 204)]).trace).getLast? ∧
    (abort (run (sampleEnv ["d"] ["d/a", "d/b"] [])
        (construct (sampleItem "d" true) false false [] 0)
        [Input.finishedSignal (sampleReply NetworkError.NoError 204)])
        AbortType.Asynchronous).trace =
      (run (sampleEnv ["d"] ["d/a", "d/b"] []) (construct (sampleItem "d" true) false false [] 0)
        [Input.finishedSignal (sampleReply NetworkError.NoError 204)]).trace ++
        Event.replyAbort ::
          (if AbortType.Asynchronous = AbortType.Asynchronous then [Event.abortFinished]
           else []) :=
  (abort_cancels_request (sampleEnv ["d"] ["d/a", "d/b"] []) (sampleItem "d" true) false false
    [] 0 [Input.finishedSignal (sampleReply NetworkError.NoError 204)]
    AbortType.Asynchronous).1 (by decide)

/-! ## C15: commits -/

/-- Every input keeps a job in partial mode in partial mode. -/
theorem foldl_partialOnly (env : Env J) (item : SyncFileItem) (inputs : List Input) :
    ∀ s : State J, Reach env item s → PartialOnly item s →
      PartialOnly item (inputs.foldl (deliver env) s) := by
  induction inputs with
  | nil => intro s _ h; exact h
  | cons i inputs ih =>
    intro s hr hp
    refine ih _ (deliver_reach env item s i hr).1 ?_
    obtain ⟨p1, p2, p3, p4, p5⟩ := hp
    rcases deliver_cases env s i hr.2.1 with hs | ⟨t, hs⟩ | ⟨r, fl, jr, delta, hd, -, -, -⟩ |
      ⟨r, cur, next, hq, -, -, -, -, hs⟩ | ⟨r, cur, hq, -, -, -, -, hs⟩ |
      ⟨r, hq, -, -, hs⟩ | ⟨b, e, m, fl, hh, -, -⟩
    · rw [hs]
      exact ⟨p1, p2, p3, p4, p5⟩
    · rw [hs, abort_eq]
      refine ⟨p1, p2, ?_, ?_, p5⟩
      · cases s._job.isSome <;> cases t <;> simpa [abortEffects, commits] using p3
      · cases s._job.isSome <;> cases t <;> simpa [abortEffects, helpers] using p4
    · exact absurd hd p1
    · rw [hs]
      exact ⟨by simp, p2, by simpa [commits] using p3, by simpa [helpers] using p4, p5⟩
    · rw [hs]
      exact ⟨by simp, p2, by simpa [commits] using p3, by simpa [helpers] using p4, p5⟩
    · rw [hs]
      exact ⟨by simp, p2, by simpa [commits] using p3, by simpa [helpers] using p4, p5⟩
    · rw [p2] at hh
      exact absurd hh (by simp)

/-- A job for a directory with selective-sync descendants stays in partial
mode, whatever the abort flag and the inputs. -/
theorem run_partialOnly (env : Env J) (item : SyncFileItem) (abortRequested flag : Bool)
    (j : J) (n : Nat) (inputs : List Input) (hdir : item.isDirectory = true)
    (hsel : env.db.hasSelectiveSyncDescendants j item._file = true) :
    PartialOnly item (run env (construct item abortRequested flag j n) inputs) := by
  refine foldl_partialOnly env item inputs _ (start_reach env item abortRequested flag j n) ?_
  cases abortRequested
  · cases hlist : env.db.getSyncedDescendants j item._file with
    | nil =>
      rw [start_empty env _ rfl hdir hsel hlist]
      simp [PartialOnly, construct, commits, helpers]
    | cons first rest =>
      rw [start_partial_mode env _ rfl hdir hsel first rest rfl hlist]
      simp [PartialOnly, construct, commits, helpers]
  · rw [start_aborted env _ rfl]
    simp [PartialOnly, construct, commits, helpers]

/-- C15, on the code: a job for a directory with selective-sync descendants
never calls `commit`, whatever the abort flag, the responses and the results
of `deleteFileRecord`; the records its partial steps remove are followed by
no commit of the job. -/
theorem partial_delete_never_commits (env : Env J) (item : SyncFileItem)
    (abortRequested flag : Bool) (j : J) (n : Nat) (inputs : List Input)
    (hdir : item.isDirectory = true)
    (hsel : env.db.hasSelectiveSyncDescendants j item._file = true) :
    commits (run env (construct item abortRequested flag j n) inputs).trace = [] :=
  (run_partialOnly env item abortRequested flag j n inputs hdir hsel).2.2.1

/-- C15 at the failing input: directory `d` with the one synced descendant
`d/a`, deleted on the server with status 204; its record is removed, the job
reports `Success`, and no commit was issued. -/
theorem partial_delete_never_commits_witness :
    (run (sampleEnv ["d"] ["d/a"] []) (construct (sampleItem "d" true) false false ["d/a"] 0)
      [Input.finishedSignal (sampleReply NetworkError.NoError 204)]).trace =
      [Event.hasSelectiveSyncDescendants "d", Event.getSyncedDescendants "d",
       Event.deleteJobStart (partialJobFor (sampleEnv ["d"] ["d/a"] []) (sampleItem "d" true)
        "d/a"),
       Event.deleteFileRecord "d/a" false true,
       Event.done Status.Success "" ErrorCategory.NoError] ∧
    commits (run (sampleEnv ["d"] ["d/a"] []) (construct (sampleItem "d" true) false false ["d/a"] 0)
      [Input.finishedSignal (sampleReply NetworkError.NoError 204)]).trace = [] :=
  ⟨by decide,
    partial_delete_never_commits (sampleEnv ["d"] ["d/a"] []) (sampleItem "d" true) false false
      ["d/a"] 0 [Input.finishedSignal (sampleReply NetworkError.NoError 204)] (by decide)
      (by decide)⟩

/-! ## C17: the item's output fields -/

/-- Aborts before the response change neither what is in flight nor the item,
and make the job call no `done`. -/
theorem aborts_run (env : Env J) (aborts : List AbortType) :
    ∀ s : State J,
      ((aborts.map Input.abort).foldl (deliver env) s).pendingSignal = s.pendingSignal ∧
      ((aborts.map Input.abort).foldl (deliver env) s).helperPending = s.helperPending ∧
      ((aborts.map Input.abort).foldl (deliver env) s)._item = s._item ∧
      dones ((aborts.map Input.abort).foldl (deliver env) s).trace = dones s.trace := by
  induction aborts with
  | nil => intro s; exact ⟨rfl, rfl, rfl, rfl⟩
  | cons t aborts ih =>
    intro s
    obtain ⟨a1, a2, a3, -, -, -, -, -, -, a10⟩ := abort_frame s t
    obtain ⟨b1, b2, b3, b4⟩ := ih (deliver env s (Input.abort t))
    simp only [List.map_cons, List.foldl_cons]
    simp only [deliver] at b1 b2 b3 b4 ⊢
    exact ⟨b1.trans a1, b2.trans a2, b3.trans a3, b4.trans a10⟩

/-- The direct slot copies the reply's HTTP status, response timestamp and
request id into the item, whatever the reply, calls `done` once and leaves
nothing in flight. -/
theorem direct_step_item (env : Env J) (s : State J) (r : Reply)
    (hp : s.pendingSignal = some Slot.slotDeleteJobFinished) :
    (deliver env s (Input.finishedSignal r))._item = withReply s._item r ∧
    (deliver env s (Input.finishedSignal r)).pendingSignal = none ∧
    (deliver env s (Input.finishedSignal r)).helperPending = s.helperPending ∧
    (dones (deliver env s (Input.finishedSignal r)).trace).length =
      (dones s.trace).length + 1 := by
  by_cases hok : r.transportOk
  · by_cases hst : r.httpStatus = 204 ∨ r.httpStatus = 404
    · obtain ⟨d1, d2, d3⟩ := direct_step_accepted env s r hp hok hst
      refine ⟨?_, d1, d2, ?_⟩
      · have h : ¬ (r.error ≠ NetworkError.NoError ∧
            r.error ≠ NetworkError.ContentNotFoundError) := by
          unfold Reply.transportOk at hok
          tauto
        have h2 : ¬ (r.httpStatus ≠ 204 ∧ r.httpStatus ≠ 404) := by tauto
        simp only [deliver, hp, slotDeleteJobFinished, h, h2, if_false]
        cases (env.db.deleteFileRecord s._journal s._item._originalFile
          s._item.isDirectory).1 <;> simp [done, emit, withReply]
      · rw [d3, dones_append]
        cases (env.db.deleteFileRecord s._journal s._item._originalFile
          s._item.isDirectory).1 <;> simp [dones]
    · obtain ⟨d1, d2, d3⟩ := direct_step_wrong_status env s r hp hok (by tauto)
      refine ⟨?_, d1, d2, by rw [d3, dones_append]; simp [dones]⟩
      have h : ¬ (r.error ≠ NetworkError.NoError ∧
          r.error ≠ NetworkError.ContentNotFoundError) := by
        unfold Reply.transportOk at hok
        tauto
      have h2 : r.httpStatus ≠ 204 ∧ r.httpStatus ≠ 404 := by tauto
      simp [deliver, hp, slotDeleteJobFinished, h, h2, done, emit, withReply]
  · obtain ⟨d1, d2, d3⟩ := direct_step_failed env s r hp hok
    refine ⟨?_, d1, d2, by rw [d3, dones_append]; simp [dones]⟩
    have h : r.error ≠ NetworkError.NoError ∧ r.error ≠ NetworkError.ContentNotFoundError := by
      unfold Reply.transportOk at hok
      tauto
    simp [deliver, hp, slotDeleteJobFinished, h, done, emit, withReply]

/-- C17, as stated, fails outside the direct delete. A partial delete of one
descendant completes with `Success` on a response with status 204, a
timestamp and a request id, and the item still has HTTP code 0 and empty
timestamp and request id; a delegated delete completes with `Success` and the
job has written none of the three fields either. -/
theorem output_fields_counterexample :
    (sampleReply NetworkError.NoError 204).httpStatus = 204 ∧
    (sampleReply NetworkError.NoError 204).responseTimestamp =
      "Mon, 02 Nov 2026 08:00:00 GMT" ∧
    (sampleReply NetworkError.NoError 204).requestId = "req" ∧
    dones (run (sampleEnv ["d"] ["d/a"] []) (construct (sampleItem "d" true) false false ["d/a"] 0)
      [Input.finishedSignal (sampleReply NetworkError.NoError 204)]).trace =
      [(Status.Success, "", ErrorCategory.NoError)] ∧
    (run (sampleEnv ["d"] ["d/a"] []) (construct (sampleItem "d" true) false false ["d/a"] 0)
      [Input.finishedSignal (sampleReply NetworkError.NoError 204)])._item._httpErrorCode = 0 ∧
    (run (sampleEnv ["d"] ["d/a"] []) (construct (sampleItem "d" true) false false ["d/a"] 0)
      [Input.finishedSignal (sampleReply NetworkError.NoError 204)])._item._responseTimeStamp =
      "" ∧
    (run (sampleEnv ["d"] ["d/a"] []) (construct (sampleItem "d" true) false false ["d/a"] 0)
      [Input.finishedSignal (sampleReply NetworkError.NoError 204)])._item._requestId = "" ∧
    dones (run (sampleEnv [] [] [])
      (construct { sampleItem "secret.txt" false with _encryptedFileName := "4f2a" } false false
        [] 0)
      [Input.helperFinished true NetworkError.NoError ""]).trace =
      [(Status.Success, "", ErrorCategory.NoError)] ∧
    (run (sampleEnv [] [] [])
      (construct { sampleItem "secret.txt" false with _encryptedFileName := "4f2a" } false false
        [] 0)
      [Input.helperFinished true NetworkError.NoError ""])._item =
      { sampleItem "secret.txt" false with _encryptedFileName := "4f2a" } := by
  decide

/-- C17 (amended): in every completed direct run the item's output fields
HTTP code, response timestamp and request id are written by the job once, at
completion, with the values of the one response, which is the response that
determines the Outcome: whatever aborts precede the response the item is
untouched and `done` not yet called before it, and whatever follows it the
three fields hold the response's values, every other field is as it was, and
`done` has been called exactly once. -/
theorem direct_delete_output_fields (env : Env J) (item : SyncFileItem) (j : J) (flag : Bool)
    (n : Nat) (aborts : List AbortType) (r : Reply) (later : List Input)
    (hnp : ¬ (item.isDirectory = true ∧ env.db.hasSelectiveSyncDescendants j item._file = true))
    (hname : item._encryptedFileName = "") (henc : item.isEncrypted = false) :
    (run env (construct item false flag j n) (aborts.map Input.abort))._item = item ∧
    dones (run env (construct item false flag j n) (aborts.map Input.abort)).trace = [] ∧
    (run env (construct item false flag j n)
        (aborts.map Input.abort ++ Input.finishedSignal r :: later))._item =
      { item with
        _httpErrorCode := r.httpStatus
        _responseTimeStamp := r.responseTimestamp
        _requestId := r.requestId } ∧
    (dones (run env (construct item false flag j n)
        (aborts.map Input.abort ++ Input.finishedSignal r :: later)).trace).length = 1 := by
  obtain ⟨s1, s2, s3, -, s5⟩ := start_direct_facts env item j flag n hnp hname henc
  obtain ⟨a1, a2, a3, a4⟩ := aborts_run env aborts (start env (construct item false flag j n))
  have hdone0 : dones (start env (construct item false flag j n)).trace = [] := by
    rw [s5]
    by_cases hd : item.isDirectory = true <;> simp [dones, hd]
  obtain ⟨d1, d2, d3, d4⟩ := direct_step_item env
    ((aborts.map Input.abort).foldl (deliver env) (start env (construct item false flag j n))) r
    (a1.trans s1)
  obtain ⟨-, -, c3, -, -, -, -, -, -, c10⟩ := settled_run env later _ d2 (d3.trans (a2.trans s2))
  refine ⟨?_, ?_, ?_, ?_⟩
  · exact a3.trans s3
  · exact a4.trans hdone0
  · simp only [run, List.foldl_append, List.foldl_cons]
    rw [c3, d1, a3, s3]
    rfl
  · simp only [run, List.foldl_append, List.foldl_cons]
    rw [c10, d4, a4, hdone0]
    rfl

/-- C17 (amended) at a concrete input: file `f`, aborted asynchronously, its
request then answered as cancelled with no HTTP status. -/
theorem direct_delete_output_fields_witness :
    (run (sampleEnv [] [] []) (construct (sampleItem "f" false) false false ["f"] 0)
      ([AbortType.Asynchronous].map Input.abort))._item = sampleItem "f" false ∧
    dones (run (sampleEnv [] [] []) (construct (sampleItem "f" false) false false ["f"] 0)
      ([AbortType.Asynchronous].map Input.abort)).trace = [] ∧
    (run (sampleEnv [] [] []) (construct (sampleItem "f" false) false false ["f"] 0)
      ([AbortType.Asynchronous].map Input.abort ++
        Input.finishedSignal (sampleReply NetworkError.OperationCanceledError 0) :: []))._item =
      { sampleItem "f" false with
        _httpErrorCode := (sampleReply NetworkError.OperationCanceledError 0).httpStatus
        _responseTimeStamp :=
          (sampleReply NetworkError.OperationCanceledError 0).responseTimestamp
        _requestId := (sampleReply NetworkError.OperationCanceledError 0).requestId } ∧
    (dones (run (sampleEnv [] [] []) (construct (sampleItem "f" false) false false ["f"] 0)
      ([AbortType.Asynchronous].map Input.abort ++
        Input.finishedSignal (sampleReply NetworkError.OperationCanceledError 0) ::
          [])).trace).length = 1 :=
  direct_delete_output_fields (sampleEnv [] [] []) (sampleItem "f" false) ["f"] false 0
    [AbortType.Asynchronous] (sampleReply NetworkError.OperationCanceledError 0) []
    (by decide) (by decide) (by decide)

/-! ## C11: best-effort bookkeeping in partial mode -/

theorem removals_append (t u : List Event) : removals (t ++ u) = removals t ++ removals u := by
  simp [removals]

/-- The journal's `deleteFileRecord` plays no part in `start`. -/
theorem start_withDeleteFileRecord (env : Env J) (f : J → String → Bool → Bool × J)
    (s : State J) : start (withDeleteFileRecord env f) s = start env s := rfl

/-- One input keeps two partial-mode runs that differ only in their
`deleteFileRecord` in agreement. -/
theorem deliver_sameBookkeeping (env : Env J) (f : J → String → Bool → Bool × J)
    (item : SyncFileItem) (s1 s2 : State J) (i : Input)
    (hr : Reach env item s1) (hp1 : PartialOnly item s1) (hp2 : PartialOnly item s2)
    (h : SameBookkeeping s1 s2) :
    SameBookkeeping (deliver (withDeleteFileRecord env f) s1 i) (deliver env s2 i) := by
  obtain ⟨e1, e2, e3, e4, e5, e6, e7, e8⟩ := h
  cases i with
  | abort t =>
    simp only [deliver, abort_eq]
    refine ⟨e1, e2, e3, e4, e5, ?_, ?_, ?_⟩
    · simp only [requests_append, e6, e5]
    · simp only [removals_append, e7, e5]
    · simp only [dones_append, e8, e5]
  | helperFinished b e m =>
    have h1 : deliver (withDeleteFileRecord env f) s1 (Input.helperFinished b e m) = s1 := by
      simp [deliver, hp1.2.1]
    have h2 : deliver env s2 (Input.helperFinished b e m) = s2 := by
      simp [deliver, hp2.2.1]
    rw [h1, h2]
    exact ⟨e1, e2, e3, e4, e5, e6, e7, e8⟩
  | finishedSignal r =>
    cases hp : s1.pendingSignal with
    | none =>
      have h1 : deliver (withDeleteFileRecord env f) s1 (Input.finishedSignal r) = s1 := by
        simp [deliver, hp]
      have h2 : deliver env s2 (Input.finishedSignal r) = s2 := by
        simp [deliver, ← e4, hp]
      rw [h1, h2]
      exact ⟨e1, e2, e3, e4, e5, e6, e7, e8⟩
    | some slot =>
      cases slot with
      | slotDeleteJobFinished => exact absurd hp hp1.1
      | slotPartialDeleteJobFinished =>
        have hq : s2.pendingSignal = some Slot.slotPartialDeleteJobFinished := by
          rw [← e4, hp]
        have hlt := hr.2.1 hp
        have hcur : s1._syncedItemsToDelete[s1._currentDeleteIndex]? =
            some (s1._syncedItemsToDelete[s1._currentDeleteIndex]) :=
          List.getElem?_eq_getElem hlt
        have hcur2 : s2._syncedItemsToDelete[s2._currentDeleteIndex]? =
            some (s1._syncedItemsToDelete[s1._currentDeleteIndex]) := by
          rw [← e2, ← e3]
          exact hcur
        by_cases hok : r.transportOk
        · by_cases hnext : s1._currentDeleteIndex + 1 < s1._syncedItemsToDelete.length
          · have hn : s1._syncedItemsToDelete[s1._currentDeleteIndex + 1]? =
                some (s1._syncedItemsToDelete[s1._currentDeleteIndex + 1]) :=
              List.getElem?_eq_getElem hnext
            have hn2 : s2._syncedItemsToDelete[s2._currentDeleteIndex + 1]? =
                some (s1._syncedItemsToDelete[s1._currentDeleteIndex + 1]) := by
              rw [← e2, ← e3]
              exact hn
            rw [partial_step_next (withDeleteFileRecord env f) s1 r hp hok _ _ hcur hn,
              partial_step_next env s2 r hq hok _ _ hcur2 hn2]
            refine ⟨e1, e2, by simp only [e3], rfl, by rw [e1]; rfl, ?_, ?_, ?_⟩
            · simp only [requests_append, e6, e1]
              rfl
            · simp only [removals_append, e7]
              rfl
            · simp only [dones_append, e8]
              rfl
          · rw [partial_step_last (withDeleteFileRecord env f) s1 r hp hok _ hcur (by omega),
              partial_step_last env s2 r hq hok _ hcur2 (by rw [← e2, ← e3]; omega)]
            refine ⟨e1, e2, by simp only [e3], rfl, e5, ?_, ?_, ?_⟩
            · simp only [requests_append, e6]
              rfl
            · simp only [removals_append, e7]
              rfl
            · simp only [dones_append, e8]
              rfl
        · rw [partial_step_failed (withDeleteFileRecord env f) s1 r hp hok,
            partial_step_failed env s2 r hq hok]
          refine ⟨e1, e2, e3, rfl, e5, ?_, ?_, ?_⟩
          · simp only [requests_append, e6]
          · simp only [removals_append, e7]
          · simp only [dones_append, e8]

/-- Any inputs keep two partial-mode runs that differ only in their
`deleteFileRecord` in agreement. -/
theorem foldl_sameBookkeeping (env : Env J) (f : J → String → Bool → Bool × J)
    (item : SyncFileItem) (inputs : List Input) :
    ∀ s1 s2 : State J, Reach (withDeleteFileRecord env f) item s1 → Reach env item s2 →
      PartialOnly item s1 → PartialOnly item s2 → SameBookkeeping s1 s2 →
      SameBookkeeping (inputs.foldl (deliver (withDeleteFileRecord env f)) s1)
        (inputs.foldl (deliver env) s2) := by
  induction inputs with
  | nil => intro s1 s2 _ _ _ _ h; exact h
  | cons i inputs ih =>
    intro s1 s2 hr1 hr2 hp1 hp2 h
    simp only [List.foldl_cons]
    refine ih _ _ (deliver_reach _ item s1 i hr1).1 (deliver_reach env item s2 i hr2).1
      (foldl_partialOnly _ item [i] s1 hr1 hp1) (foldl_partialOnly env item [i] s2 hr2 hp2) ?_
    have hr1' : Reach env item s1 := by
      obtain ⟨a1, a2, a3, a4, a5, a6, a7⟩ := hr1
      exact ⟨a1, a2, a3, a4, a5, a6, a7⟩
    exact deliver_sameBookkeeping env f item s1 s2 i hr1' hp1 hp2 h

/-- C11: in partial mode the Outcome, the cursor and the delete requests
issued do not depend on the results of `deleteFileRecord`: for a directory
with selective-sync descendants, a run with any other `deleteFileRecord` `f`
(other results, other effects on the journal) issues the same requests,
calls `deleteFileRecord` for the same entries, ends at the same cursor and
reports the same Outcome, whatever the abort flag and the inputs; and when
every removal fails, one transport success per entry still yields
`Success`. -/
theorem partial_bookkeeping_best_effort (env : Env J) (f : J → String → Bool → Bool × J)
    (item : SyncFileItem) (abortRequested flag : Bool) (j : J) (n : Nat)
    (inputs : List Input) (replies : List Reply)
    (hdir : item.isDirectory = true)
    (hsel : env.db.hasSelectiveSyncDescendants j item._file = true) :
    requests (run (withDeleteFileRecord env f) (construct item abortRequested flag j n)
        inputs).trace =
      requests (run env (construct item abortRequested flag j n) inputs).trace ∧
    removals (run (withDeleteFileRecord env f) (construct item abortRequested flag j n)
        inputs).trace =
      removals (run env (construct item abortRequested flag j n) inputs).trace ∧
    (run (withDeleteFileRecord env f) (construct item abortRequested flag j n)
        inputs)._currentDeleteIndex =
      (run env (construct item abortRequested flag j n) inputs)._currentDeleteIndex ∧
    dones (run (withDeleteFileRecord env f) (construct item abortRequested flag j n)
        inputs).trace =
      dones (run env (construct item abortRequested flag j n) inputs).trace ∧
    ((∀ r ∈ replies, r.transportOk) →
      replies.length = (env.db.getSyncedDescendants j item._file).length →
      dones (run (withDeleteFileRecord env fun journal _ _ => (false, journal))
          (construct item false flag j n) (replies.map Input.finishedSignal)).trace =
        [(Status.Success, "", ErrorCategory.NoError)]) := by
  have hsame := foldl_sameBookkeeping env f item inputs
    (start (withDeleteFileRecord env f) (construct item abortRequested flag j n))
    (start env (construct item abortRequested flag j n))
    (start_reach _ item abortRequested flag j n) (start_reach env item abortRequested flag j n)
    (run_partialOnly (withDeleteFileRecord env f) item abortRequested flag j n [] hdir hsel)
    (run_partialOnly env item abortRequested flag j n [] hdir hsel)
    ⟨rfl, rfl, rfl, rfl, rfl, rfl, rfl, rfl⟩
  obtain ⟨-, -, e3, -, -, e6, e7, e8⟩ := hsame
  refine ⟨e6, e7, e3, e8, ?_⟩
  intro hok hlen
  cases hlist : env.db.getSyncedDescendants j item._file with
  | nil =>
    rw [hlist] at hlen
    have hnil : replies = [] := List.eq_nil_of_length_eq_zero hlen
    subst hnil
    have hstart := start_empty (withDeleteFileRecord env fun journal _ _ => (false, journal))
      (construct item false flag j n) rfl hdir hsel hlist
    simp only [run, List.map_nil, List.foldl_nil, hstart]
    simp [dones, construct]
  | cons first rest =>
    rw [hlist] at hlen
    obtain ⟨-, -, -, -, -, -, -, h8, -, -⟩ :=
      run_partial_ok (withDeleteFileRecord env fun journal _ _ => (false, journal)) item j flag
        n first rest replies hdir hsel hlist hok (by simp [hlen])
    rw [h8]
    simp [hlen]

/-- C11 at a concrete input: directory `d` with two synced descendants, both
deleted on the server; a journal that removes both records and one that
removes none issue the same requests and both end in `Success`. -/
theorem partial_bookkeeping_best_effort_witness :
    requests (run
        (withDeleteFileRecord (sampleEnv ["d"] ["d/a", "d/b"] [])
          fun journal _ _ => (false, journal))
        (construct (sampleItem "d" true) false false ["d/a", "d/b"] 0)
        [Input.finishedSignal (sampleReply NetworkError.NoError 204),
         Input.finishedSignal (sampleReply NetworkError.NoError 204)]).trace =
      requests (run (sampleEnv ["d"] ["d/a", "d/b"] [])
        (construct (sampleItem "d" true) false false ["d/a", "d/b"] 0)
        [Input.finishedSignal (sampleReply NetworkError.NoError 204),
         Input.finishedSignal (sampleReply NetworkError.NoError 204)]).trace ∧
    dones (run
        (withDeleteFileRecord (sampleEnv ["d"] ["d/a", "d/b"] [])
          fun journal _ _ => (false, journal))
        (construct (sampleItem "d" true) false false ["d/a", "d/b"] 0)
        [Input.finishedSignal (sampleReply NetworkError.NoError 204),
         Input.finishedSignal (sampleReply NetworkError.NoError 204)]).trace =
      dones (run (sampleEnv ["d"] ["d/a", "d/b"] [])
        (construct (sampleItem "d" true) false false ["d/a", "d/b"] 0)
        [Input.finishedSignal (sampleReply NetworkError.NoError 204),
         Input.finishedSignal (sampleReply NetworkError.NoError 204)]).trace ∧
    dones (run
        (withDeleteFileRecord (sampleEnv ["d"] ["d/a", "d/b"] [])
          fun journal _ _ => (false, journal))
        (construct (sampleItem "d" true) false false ["d/a", "d/b"] 0)
        ([sampleReply NetworkError.NoError 204,
          sampleReply NetworkError.NoError 204].map Input.finishedSignal)).trace =
      [(Status.Success, "", ErrorCategory.NoError)] :=
  ⟨(partial_bookkeeping_best_effort (sampleEnv ["d"] ["d/a", "d/b"] [])
      (fun journal _ _ => (false, journal)) (sampleItem "d" true) false false ["d/a", "d/b"] 0
      [Input.finishedSignal (sampleReply NetworkError.NoError 204),
       Input.finishedSignal (sampleReply NetworkError.NoError 204)]
      [sampleReply NetworkError.NoError 204, sampleReply NetworkError.NoError 204]
      (by decide) (by decide)).1,
   (partial_bookkeeping_best_effort (sampleEnv ["d"] ["d/a", "d/b"] [])
      (fun journal _ _ => (false, journal)) (sampleItem "d" true) false false ["d/a", "d/b"] 0
      [Input.finishedSignal (sampleReply NetworkError.NoError 204),
       Input.finishedSignal (sampleReply NetworkError.NoError 204)]
      [sampleReply NetworkError.NoError 204, sampleReply NetworkError.NoError 204]
      (by decide) (by decide)).2.2.2.1,
   (partial_bookkeeping_best_effort (sampleEnv ["d"] ["d/a", "d/b"] [])
      (fun journal _ _ => (false, journal)) (sampleItem "d" true) false false ["d/a", "d/b"] 0
      [Input.finishedSignal (sampleReply NetworkError.NoError 204),
       Input.finishedSignal (sampleReply NetworkError.NoError 204)]
      [sampleReply NetworkError.NoError 204, sampleReply NetworkError.NoError 204]
      (by decide) (by decide)).2.2.2.2 (by decide) (by decide)⟩

end OCC
